import Mathlib

/-!
# b9 execution core: a shallow embedding of `ExecutionContext.cpp`

The interpreter state is the register triple `fn_`, `ip_`, `bp_` together with the
operand stack `stack_` and the heap owned by the object model.  Every member function of
`ExecutionContext` becomes a state transformer `Exec H α`; a C++ exception or a failed
`assert` becomes `Res.fail`, carrying the state reached at the point of failure (stack
mutations made before a throw are not rolled back by the C++ code either).

Raw addresses are modelled by positions: a stack address is a slot index, an instruction
address is a function index together with an offset into that function's instruction
array.
-/

namespace B9

/-! ## Values -/

/-- Signed immediate operand of an instruction. -/
abbrev Immediate := Int

/-- Reference to a heap object. -/
abbrev ObjRef := Nat

/-- Slot identifier, `Om::Id`, built by the handlers from the immediate. -/
abbrev SlotId := Int

/-- Resolved slot position inside an object, `Om::SlotDescriptor`. -/
abbrev SlotDescriptor := Nat

/-- Address of an instruction: element `off` of the instruction array of function `seg`. -/
structure InstrPtr where
  seg : Nat
  off : Int
  deriving DecidableEq, Repr

/-- Native pointers stored in a `Value` with `Om::AS_PTR`: the interpreter only ever saves
an instruction pointer or a stack address. -/
inductive Pointer where
  | instr (p : InstrPtr)
  | slot (pos : Nat)
  deriving DecidableEq, Repr

/-- Modelled from the spec: the tagged scalar `Om::Value` (its header is not among the
sources).  Variants: signed 48-bit integer, unsigned 48-bit integer, heap reference,
native pointer, raw bit pattern. -/
inductive Value where
  | int48 (i : Int)
  | uint48 (n : Nat)
  | ref (r : ObjRef)
  | ptr (p : Pointer)
  | raw (bits : Nat)
  deriving DecidableEq, Repr

/-- Two's complement reduction of an integer to the signed 48-bit range. -/
def wrapInt48 (x : Int) : Int := (x + 2 ^ 47) % 2 ^ 48 - 2 ^ 47

/-- Two's complement reduction of an integer to the signed 32-bit range: the conversion
performed by initialising a `std::int32_t` from a wider integer. -/
def wrapInt32 (x : Int) : Int := (x + 2 ^ 31) % 2 ^ 32 - 2 ^ 31

/-- Modelled from the spec: the constructor `Value{Om::AS_INT48, x}`; the payload is kept in
the 48-bit signed range. -/
def Value.ofInt48 (x : Int) : Value := Value.int48 (wrapInt48 x)

/-- Modelled from the spec: the constructor `Value{Om::AS_UINT48, n}`; the payload is kept in
the 48-bit unsigned range. -/
def Value.ofUint48 (n : Nat) : Value := Value.uint48 (n % 2 ^ 48)

/-- The predicate `Value::isRef`. -/
def Value.isRef : Value → Bool
  | Value.ref _ => true
  | _ => false

/-! ## Failures -/

/-- Ways in which a member function can fail.  The first group are the failures written in
`ExecutionContext.cpp`; the second group are the failures of the collaborators (stack,
value accessors, function table) as the specification describes them; `outOfFuel` is the
only artefact of the embedding and marks a dispatch loop that is still running. -/
inductive Error where
  /-- A failed `assert`. -/
  | assertion
  /-- The `runtime_error` thrown after the dispatch loop: Reached end of function. -/
  | reachedEndOfFunction
  /-- The `runtime_error` of `callJitFunction`: Need to add handlers for more parameters. -/
  | needMoreParameterHandlers
  /-- The `runtime_error` of `doPushFromObject`: Accessing non-object value as an object. -/
  | nonObjectValueAsObject
  /-- The `runtime_error` of `doPushFromObject`: field does not exist. -/
  | noSuchField
  /-- The `runtime_error` of `doPopIntoObject`: Accessing non-object as an object. -/
  | nonObjectAsObject
  | stackOverflow
  | stackUnderflow
  | unknownFunction
  | unknownPrimitive
  /-- A `Value` read through an accessor that does not match its tag. -/
  | wrongTag
  /-- A dereference outside the stack storage or outside every instruction array. -/
  | invalidAddress
  /-- The machine trapped on a native integer division by zero (the C++ expression has no
  defined result; this is not a failure raised by the interpreter). -/
  | divisionTrap
  | outOfFuel
  deriving DecidableEq, Repr

/-! ## Programs -/

/-- Operation codes dispatched by `interpret`, `END_SECTION`, and any other byte. -/
inductive OpCode where
  | END_SECTION
  | FUNCTION_CALL
  | FUNCTION_RETURN
  | PRIMITIVE_CALL
  | JMP
  | DUPLICATE
  | DROP
  | PUSH_FROM_VAR
  | POP_INTO_VAR
  | INT_ADD
  | INT_SUB
  | INT_MUL
  | INT_DIV
  | INT_PUSH_CONSTANT
  | INT_NOT
  | INT_JMP_EQ
  | INT_JMP_NEQ
  | INT_JMP_GT
  | INT_JMP_GE
  | INT_JMP_LT
  | INT_JMP_LE
  | STR_PUSH_CONSTANT
  | NEW_OBJECT
  | PUSH_FROM_OBJECT
  | POP_INTO_OBJECT
  | CALL_INDIRECT
  | SYSTEM_COLLECT
  | other (code : Nat)
  deriving DecidableEq, Repr

/-- One instruction: an operation code and its immediate. -/
structure Instruction where
  opCode : OpCode
  immediate : Immediate
  deriving DecidableEq, Repr

/-- Modelled from the spec: the dedicated end-of-stream marker that terminates the
instruction array of a function. -/
def END_SECTION : Instruction := ⟨OpCode.END_SECTION, 0⟩

/-- Static description of a function: argument count, register count, instructions. -/
structure FunctionDef where
  nargs : Nat
  nregs : Nat
  instructions : List Instruction
  deriving DecidableEq, Repr

/-! ## Interpreter state -/

/-- Modelled from the spec: the operand stack (its header is not among the sources), an
array of `cap` value slots addressed by position, with a cursor `top` one past the last
pushed value. -/
structure Stack where
  cap : Nat
  mem : Nat → Value
  top : Nat

/-- The mutable state of an `ExecutionContext`: the stack, the registers `fn_`, `ip_`,
`bp_`, and the heap `H` managed by the object model. -/
structure State (H : Type) where
  stack : Stack
  fn : Nat
  ip : InstrPtr
  bp : Nat
  heap : H

/-- Outcome of running a member function: normal completion with a result, or a failure;
both carry the state that was reached. -/
inductive Res (H : Type) (α : Type) where
  | ok (a : α) (s : State H)
  | fail (e : Error) (s : State H)

/-- A member function of `ExecutionContext` returning `α`. -/
def Exec (H : Type) (α : Type) : Type := State H → Res H α

/-- Normal completion without touching the state. -/
def Exec.pure {H α : Type} (a : α) : Exec H α := fun s => Res.ok a s

/-- Sequencing: a failure of the first part skips the rest. -/
def Exec.bind {H α β : Type} (x : Exec H α) (f : α → Exec H β) : Exec H β := fun s =>
  match x s with
  | Res.ok a s1 => f a s1
  | Res.fail e s1 => Res.fail e s1

instance instMonadExec {H : Type} : Monad (Exec H) where
  pure := Exec.pure
  bind := Exec.bind

/-- Raise a failure in the current state. -/
def raise {H α : Type} (e : Error) : Exec H α := fun s => Res.fail e s

/-- Read the whole state. -/
def getState {H : Type} : Exec H (State H) := fun s => Res.ok s s

/-- The state of a result. -/
def Res.state {H α : Type} : Res H α → State H
  | Res.ok _ s => s
  | Res.fail _ s => s

/-- The value of a normal completion. -/
def Res.value? {H α : Type} : Res H α → Option α
  | Res.ok a _ => some a
  | Res.fail _ _ => none

/-- The failure of an abnormal completion. -/
def Res.error? {H α : Type} : Res H α → Option Error
  | Res.ok _ _ => none
  | Res.fail e _ => some e

/-! ## Value accessors -/

/-- Modelled from the spec: `Value::getInt48`; reading through the wrong tag fails. -/
def Value.getInt48 {H : Type} : Value → Exec H Int
  | Value.int48 i => Exec.pure i
  | _ => raise Error.wrongTag

/-- Modelled from the spec: `Value::getUint48`; reading through the wrong tag fails. -/
def Value.getUint48 {H : Type} : Value → Exec H Nat
  | Value.uint48 n => Exec.pure n
  | _ => raise Error.wrongTag

/-- Modelled from the spec: `Value::getPtr<Instruction>`. -/
def Value.getInstrPtr {H : Type} : Value → Exec H InstrPtr
  | Value.ptr (Pointer.instr p) => Exec.pure p
  | _ => raise Error.wrongTag

/-- Modelled from the spec: `Value::getPtr<Om::Value>`. -/
def Value.getSlotPtr {H : Type} : Value → Exec H Nat
  | Value.ptr (Pointer.slot p) => Exec.pure p
  | _ => raise Error.wrongTag

/-! ## Stack operations -/

/-- Modelled from the spec: `Stack::push`, failing with `StackOverflow` when the reserved
capacity is exhausted. -/
def stackPush {H : Type} (v : Value) : Exec H Unit := fun s =>
  if s.stack.top < s.stack.cap then
    Res.ok () { s with stack := { s.stack with
      mem := Function.update s.stack.mem s.stack.top v, top := s.stack.top + 1 } }
  else Res.fail Error.stackOverflow s

/-- Modelled from the spec: `Stack::pushn`, which reserves `n` slots without writing them. -/
def stackPushn {H : Type} (n : Nat) : Exec H Unit := fun s =>
  if s.stack.top + n ≤ s.stack.cap then
    Res.ok () { s with stack := { s.stack with top := s.stack.top + n } }
  else Res.fail Error.stackOverflow s

/-- Modelled from the spec: `Stack::pop`, failing with `StackUnderflow` on an empty stack. -/
def stackPop {H : Type} : Exec H Value := fun s =>
  if 0 < s.stack.top then
    Res.ok (s.stack.mem (s.stack.top - 1)) { s with stack := { s.stack with
      top := s.stack.top - 1 } }
  else Res.fail Error.stackUnderflow s

/-- Modelled from the spec: `Stack::popn`. -/
def stackPopn {H : Type} (n : Nat) : Exec H Unit := fun s =>
  if n ≤ s.stack.top then
    Res.ok () { s with stack := { s.stack with top := s.stack.top - n } }
  else Res.fail Error.stackUnderflow s

/-- Modelled from the spec: `Stack::peek`, the value below the cursor. -/
def stackPeek {H : Type} : Exec H Value := fun s =>
  if 0 < s.stack.top then Res.ok (s.stack.mem (s.stack.top - 1)) s
  else Res.fail Error.stackUnderflow s

/-- Modelled from the spec: `Stack::top`, the address of the cursor. -/
def stackTop {H : Type} : Exec H Nat := fun s => Res.ok s.stack.top s

/-- Modelled from the spec: `Stack::restore`, which moves the cursor to a stack address. -/
def stackRestore {H : Type} (p : Nat) : Exec H Unit := fun s =>
  if p ≤ s.stack.cap then Res.ok () { s with stack := { s.stack with top := p } }
  else Res.fail Error.invalidAddress s

/-- Read of the slot at address `a` (the C++ `args[index]` as an rvalue). -/
def readSlot {H : Type} (a : Int) : Exec H Value := fun s =>
  if 0 ≤ a ∧ a < s.stack.cap then Res.ok (s.stack.mem a.toNat) s
  else Res.fail Error.invalidAddress s

/-- Write of the slot at address `a` (the C++ `args[index] = v`). -/
def writeSlot {H : Type} (a : Int) (v : Value) : Exec H Unit := fun s =>
  if 0 ≤ a ∧ a < s.stack.cap then
    Res.ok () { s with stack := { s.stack with mem := Function.update s.stack.mem a.toNat v } }
  else Res.fail Error.invalidAddress s

/-- The member `ExecutionContext::push`, which forwards to the stack. -/
def push {H : Type} (v : Value) : Exec H Unit := stackPush v

/-- The member `ExecutionContext::pop`, which forwards to the stack. -/
def pop {H : Type} : Exec H Value := stackPop

/-! ## The virtual machine and the build -/

/-- Modelled from the spec: the collaborators of the execution context, taken as
parameters.  The function and primitive tables belong to `VirtualMachine`; the allocator
operations `allocateEmptyObject`, `lookupSlot`, `transitionLayout`, `getValue`,
`setValue` and the collector entry point act on the heap; `ndebug` records whether the
translation unit is compiled with `NDEBUG`, which turns every `assert` into a no-op.

`lookupSlot` answers `none` when the slot is not found (the C++ function then returns
`false` and leaves its output descriptor alone).  `transitionLayout` answers the new
layout map (`none` for a null pointer), the object held by the rooted reference after the
call, and the new heap.

`nativeDivByZero left` is what the machine does for the C++ expression `left / 0`, which
the language leaves undefined: `none` when the division instruction traps, `some q` when
it yields the word `q`. -/
structure VirtualMachine (H : Type) where
  functions : List FunctionDef
  primitives : List (State H → Res H Unit)
  ndebug : Bool
  allocateEmptyObject : H → ObjRef × H
  lookupSlot : H → ObjRef → SlotId → Option SlotDescriptor
  transitionLayout : H → ObjRef → SlotId → Option Nat × ObjRef × H
  getValue : H → ObjRef → SlotDescriptor → Value
  setValue : H → ObjRef → SlotDescriptor → Value → H
  systemCollect : H → H
  defaultDescriptor : SlotDescriptor
  nativeDivByZero : Int → Option Int

/-- The C `assert` macro: a no-op under `NDEBUG`, otherwise a false condition aborts. -/
def assert {H : Type} (vm : VirtualMachine H) (c : Bool) : Exec H Unit :=
  if vm.ndebug then Exec.pure ()
  else if c then Exec.pure () else raise Error.assertion

/-- Modelled from the spec: `getFunction`, the lookup in the function table, failing with
`UnknownFunction` when the index is out of range. -/
def getFunction {H : Type} (vm : VirtualMachine H) (index : Nat) : Exec H FunctionDef :=
  fun s =>
    match vm.functions[index]? with
    | some f => Res.ok f s
    | none => Res.fail Error.unknownFunction s

/-- Modelled from the spec: `VirtualMachine::getPrimitive`, the lookup in the primitive
table, failing with `UnknownPrimitive` when the index is out of range. -/
def getPrimitive {H : Type} (vm : VirtualMachine H) (index : Nat) :
    Exec H (State H → Res H Unit) := fun s =>
  match vm.primitives[index]? with
  | some p => Res.ok p s
  | none => Res.fail Error.unknownPrimitive s

/-- The instruction stored at an instruction address, if the address lies inside the
instruction array of a known function. -/
def instrAt {H : Type} (vm : VirtualMachine H) (p : InstrPtr) : Option Instruction :=
  match vm.functions[p.seg]? with
  | some f => if 0 ≤ p.off then f.instructions[p.off.toNat]? else none
  | none => none

/-- The dereference `*ip_`. -/
def fetch {H : Type} (vm : VirtualMachine H) : Exec H Instruction := fun s =>
  match instrAt vm s.ip with
  | some i => Res.ok i s
  | none => Res.fail Error.invalidAddress s

/-- The expression `ip_->immediate()`. -/
def immediate {H : Type} (vm : VirtualMachine H) : Exec H Immediate := do
  let i ← fetch vm
  pure i.immediate

/-- The conversion of an immediate to `std::size_t`. -/
def immediateIndex (i : Immediate) : Nat := (i % 2 ^ 64).toNat

/-- Pointer arithmetic on the instruction pointer: `ip_ += k`. -/
def advance {H : Type} (k : Int) : Exec H Unit := fun s =>
  Res.ok () { s with ip := { s.ip with off := s.ip.off + k } }

/-- Assignment to `fn_`. -/
def setFn {H : Type} (fn : Nat) : Exec H Unit := fun s => Res.ok () { s with fn := fn }

/-- Assignment to `ip_`. -/
def setIp {H : Type} (ip : InstrPtr) : Exec H Unit := fun s => Res.ok () { s with ip := ip }

/-- Assignment to `bp_`. -/
def setBp {H : Type} (bp : Nat) : Exec H Unit := fun s => Res.ok () { s with bp := bp }

/-- Replacement of the heap by the result of an allocator operation. -/
def setHeap {H : Type} (h : H) : Exec H Unit := fun s => Res.ok () { s with heap := h }

/-- Modelled from the spec: `Value::getRef`; reading through the wrong tag fails. -/
def Value.getRef {H : Type} : Value → Exec H ObjRef
  | Value.ref r => Exec.pure r
  | _ => raise Error.wrongTag

/-! ## Call frame protocol -/

/-- The member `enterCall`. -/
def enterCall {H : Type} (vm : VirtualMachine H) (target : Nat) : Exec H Unit := do
  let callee ← getFunction vm target
  -- reserve space for locals (args are already pushed)
  stackPushn callee.nargs
  -- save caller state
  let s ← getState
  stackPush (Value.ofUint48 s.fn)
  stackPush (Value.ptr (Pointer.instr s.ip))
  stackPush (Value.ptr (Pointer.slot s.bp))
  -- set up state for callee
  setFn target
  setIp ⟨target, 0⟩
  let top ← stackTop
  setBp top

/-- The member `exitCall`. -/
def exitCall {H : Type} (vm : VirtualMachine H) : Exec H Unit := do
  let s ← getState
  let callee ← getFunction vm s.fn
  -- pop callee scratch space
  stackRestore s.bp
  -- restore caller state. note IP is restored verbatim, not incremented.
  let bp ← (← stackPop).getSlotPtr
  setBp bp
  let ip ← (← stackPop).getInstrPtr
  setIp ip
  let fn ← (← stackPop).getUint48
  setFn fn
  -- pop parameters and locals
  stackPopn (callee.nargs + callee.nregs)

/-! ## Instruction handlers -/

/-- The handler `doFunctionCall`. -/
def doFunctionCall {H : Type} (vm : VirtualMachine H) : Exec H Unit := do
  let target ← immediate vm
  enterCall vm (immediateIndex target)

/-- The handler `doFunctionReturn`. -/
def doFunctionReturn {H : Type} (vm : VirtualMachine H) : Exec H Unit := do
  let result ← stackPop
  exitCall vm
  stackPush result
  advance 1

/-- The handler `doPrimitiveCall`. -/
def doPrimitiveCall {H : Type} (vm : VirtualMachine H) : Exec H Unit := do
  let index ← immediate vm
  let primitive ← getPrimitive vm (immediateIndex index)
  (primitive : Exec H Unit)
  advance 1

/-- The handler `doJmp`. -/
def doJmp {H : Type} (vm : VirtualMachine H) : Exec H Unit := do
  let k ← immediate vm
  advance (k + 1)

/-- The handler `doDuplicate`. -/
def doDuplicate {H : Type} : Exec H Unit := do
  let v ← stackPeek
  stackPush v
  advance 1

/-- The handler `doDrop`. -/
def doDrop {H : Type} : Exec H Unit := do
  let _ ← stackPop
  advance 1

/-- The address computed by `bp_ - (3 + callee.nargs + callee.nregs)`. -/
def argsBase (bp : Nat) (callee : FunctionDef) : Int :=
  (bp : Int) - ((3 + callee.nargs + callee.nregs : Nat) : Int)

/-- The handler `doPushFromVar`. -/
def doPushFromVar {H : Type} (vm : VirtualMachine H) : Exec H Unit := do
  let s ← getState
  let callee ← getFunction vm s.fn
  let args := argsBase s.bp callee
  let index ← immediate vm
  let v ← readSlot (args + index)
  stackPush v
  advance 1

/-- The handler `doPopIntoVar`. -/
def doPopIntoVar {H : Type} (vm : VirtualMachine H) : Exec H Unit := do
  let s ← getState
  let callee ← getFunction vm s.fn
  let args := argsBase s.bp callee
  let index ← immediate vm
  let v ← stackPop
  writeSlot (args + index) v
  advance 1

/-- The handler `doIntAdd`. -/
def doIntAdd {H : Type} : Exec H Unit := do
  let right ← (← stackPop).getInt48
  let left ← (← stackPop).getInt48
  push (Value.ofInt48 (left + right))

/-- The handler `doIntSub`. -/
def doIntSub {H : Type} : Exec H Unit := do
  let right ← (← stackPop).getInt48
  let left ← (← stackPop).getInt48
  push (Value.ofInt48 (left - right))

/-- The handler `doIntMul`. -/
def doIntMul {H : Type} : Exec H Unit := do
  let right ← (← stackPop).getInt48
  let left ← (← stackPop).getInt48
  push (Value.ofInt48 (left * right))

/-- The C++ expression `left / right` on integers: truncating division, and for a zero
divisor whatever the machine does. -/
def nativeDiv {H : Type} (vm : VirtualMachine H) (left right : Int) : Exec H Int :=
  if right = 0 then
    match vm.nativeDivByZero left with
    | some q => Exec.pure q
    | none => raise Error.divisionTrap
  else Exec.pure (Int.tdiv left right)

/-- The handler `doIntDiv`. -/
def doIntDiv {H : Type} (vm : VirtualMachine H) : Exec H Unit := do
  let right ← (← stackPop).getInt48
  let left ← (← stackPop).getInt48
  push (Value.ofInt48 (← nativeDiv vm left right))

/-- The handler `doIntPushConstant`. -/
def doIntPushConstant {H : Type} (vm : VirtualMachine H) : Exec H Unit := do
  let k ← immediate vm
  stackPush (Value.ofInt48 k)
  advance 1

/-- The handler `doIntNot`. -/
def doIntNot {H : Type} : Exec H Unit := do
  let x ← (← stackPop).getInt48
  push (Value.ofInt48 (if x = 0 then 1 else 0))
  advance 1

/-- The handler `doIntJmpEq`. -/
def doIntJmpEq {H : Type} (vm : VirtualMachine H) : Exec H Unit := do
  let right ← (← stackPop).getInt48
  let left ← (← stackPop).getInt48
  if left = right then
    let k ← immediate vm
    advance (k + 1)
  else
    pure ()

/-- The handler `doIntJmpNeq`. -/
def doIntJmpNeq {H : Type} (vm : VirtualMachine H) : Exec H Unit := do
  let right ← (← stackPop).getInt48
  let left ← (← stackPop).getInt48
  if left ≠ right then
    let k ← immediate vm
    advance (k + 1)
  else
    advance 1

/-- The handler `doIntJmpGt`. -/
def doIntJmpGt {H : Type} (vm : VirtualMachine H) : Exec H Unit := do
  let right ← (← stackPop).getInt48
  let left ← (← stackPop).getInt48
  if left > right then
    let k ← immediate vm
    advance (k + 1)
  else
    advance 1

/-- The handler `doIntJmpGe`. -/
def doIntJmpGe {H : Type} (vm : VirtualMachine H) : Exec H Unit := do
  let right ← (← stackPop).getInt48
  let left ← (← stackPop).getInt48
  if left ≥ right then
    let k ← immediate vm
    advance (k + 1)
  else
    advance 1

/-- The handler `doIntJmpLt`; both operands are declared `std::int32_t`. -/
def doIntJmpLt {H : Type} (vm : VirtualMachine H) : Exec H Unit := do
  let right := wrapInt32 (← (← stackPop).getInt48)
  let left := wrapInt32 (← (← stackPop).getInt48)
  if left < right then
    let k ← immediate vm
    advance (k + 1)
  else
    advance 1

/-- The handler `doIntJmpLe`. -/
def doIntJmpLe {H : Type} (vm : VirtualMachine H) : Exec H Unit := do
  let right ← (← stackPop).getInt48
  let left ← (← stackPop).getInt48
  if left ≤ right then
    let k ← immediate vm
    advance (k + 1)
  else
    advance 1

/-- The handler `doStrPushConstant`. -/
def doStrPushConstant {H : Type} (vm : VirtualMachine H) : Exec H Unit := do
  let k ← immediate vm
  stackPush (Value.ofInt48 k)
  advance 1

/-- The handler `doNewObject`. -/
def doNewObject {H : Type} (vm : VirtualMachine H) : Exec H Unit := do
  let s ← getState
  let (ref, heap) := vm.allocateEmptyObject s.heap
  setHeap heap
  stackPush (Value.ref ref)
  advance 1

/-- The handler `doPushFromObject`. -/
def doPushFromObject {H : Type} (vm : VirtualMachine H) : Exec H Unit := do
  let slotId ← immediate vm
  let value ← stackPop
  if !value.isRef then
    raise Error.nonObjectValueAsObject
  else
    let obj ← value.getRef
    let s ← getState
    match vm.lookupSlot s.heap obj slotId with
    | some descriptor =>
        let result := vm.getValue s.heap obj descriptor
        stackPush result
        advance 1
    | none => raise Error.noSuchField

/-- The slot-not-found branch of `doPopIntoObject`: transition the layout of the rooted
object, look the slot up again through `object`, then re-read the root.  The result is the
object and the descriptor used by the store that follows. -/
def transitionAndLookup {H : Type} (vm : VirtualMachine H) (object : ObjRef) (slotId : SlotId)
    (descriptor : SlotDescriptor) : Exec H (ObjRef × SlotDescriptor) := do
  let s ← getState
  let (map, root, heap) := vm.transitionLayout s.heap object slotId
  setHeap heap
  assert vm map.isSome
  let descriptor := (vm.lookupSlot heap object slotId).getD descriptor
  pure (root, descriptor)

/-- The handler `doPopIntoObject`. -/
def doPopIntoObject {H : Type} (vm : VirtualMachine H) : Exec H Unit := do
  let slotId ← immediate vm
  if !(← stackPeek).isRef then
    raise Error.nonObjectAsObject
  else
    let object ← (← stackPop).getRef
    let s ← getState
    let (object, descriptor) ←
      match vm.lookupSlot s.heap object slotId with
      | some descriptor => pure (object, descriptor)
      | none => transitionAndLookup vm object slotId vm.defaultDescriptor
    let val ← pop
    let s ← getState
    setHeap (vm.setValue s.heap object descriptor val)
    advance 1

/-- The handler `doCallIndirect`. -/
def doCallIndirect {H : Type} (vm : VirtualMachine H) : Exec H Unit := do
  assert vm false
  advance 1

/-- The handler `doSystemCollect`. -/
def doSystemCollect {H : Type} (vm : VirtualMachine H) : Exec H Unit := do
  let s ← getState
  setHeap (vm.systemCollect s.heap)
  advance 1

/-! ## Dispatch loop and entry points -/

/-- The `switch` of `interpret`: one handler per operation code, `assert(false)` for
every other code. -/
def dispatch {H : Type} (vm : VirtualMachine H) : OpCode → Exec H Unit
  | OpCode.FUNCTION_CALL => doFunctionCall vm
  | OpCode.FUNCTION_RETURN => doFunctionReturn vm
  | OpCode.PRIMITIVE_CALL => doPrimitiveCall vm
  | OpCode.JMP => doJmp vm
  | OpCode.DUPLICATE => doDuplicate
  | OpCode.DROP => doDrop
  | OpCode.PUSH_FROM_VAR => doPushFromVar vm
  | OpCode.POP_INTO_VAR => doPopIntoVar vm
  | OpCode.INT_ADD => doIntAdd
  | OpCode.INT_SUB => doIntSub
  | OpCode.INT_MUL => doIntMul
  | OpCode.INT_DIV => doIntDiv vm
  | OpCode.INT_PUSH_CONSTANT => doIntPushConstant vm
  | OpCode.INT_NOT => doIntNot
  | OpCode.INT_JMP_EQ => doIntJmpEq vm
  | OpCode.INT_JMP_NEQ => doIntJmpNeq vm
  | OpCode.INT_JMP_GT => doIntJmpGt vm
  | OpCode.INT_JMP_GE => doIntJmpGe vm
  | OpCode.INT_JMP_LT => doIntJmpLt vm
  | OpCode.INT_JMP_LE => doIntJmpLe vm
  | OpCode.STR_PUSH_CONSTANT => doStrPushConstant vm
  | OpCode.NEW_OBJECT => doNewObject vm
  | OpCode.PUSH_FROM_OBJECT => doPushFromObject vm
  | OpCode.POP_INTO_OBJECT => doPopIntoObject vm
  | OpCode.CALL_INDIRECT => doCallIndirect vm
  | OpCode.SYSTEM_COLLECT => doSystemCollect vm
  | _ => assert vm false

/-- One iteration of the loop of `interpret`, entered when `*ip_` is not the end marker. -/
def step {H : Type} (vm : VirtualMachine H) : Exec H Unit := do
  let instr ← fetch vm
  dispatch vm instr.opCode

/-- The member `interpret`: the loop runs while `*ip_` differs from `END_SECTION`, and the
only statement after the loop throws.  `fuel` bounds the number of loop tests. -/
def interpret {H : Type} (vm : VirtualMachine H) : Nat → Exec H Unit
  | 0 => raise Error.outOfFuel
  | fuel + 1 => do
      let instr ← fetch vm
      if instr ≠ END_SECTION then
        dispatch vm instr.opCode
        interpret vm fuel
      else
        raise Error.reachedEndOfFunction

/-- The loop `for (auto arg : arguments) stack_.push(arg)`. -/
def pushArguments {H : Type} : List Value → Exec H Unit
  | [] => pure ()
  | arg :: rest => do
      stackPush arg
      pushArguments rest

/-- The member `run(target, arguments)`. -/
def run {H : Type} (vm : VirtualMachine H) (fuel : Nat) (target : Nat)
    (arguments : List Value) : Exec H Value := do
  let callee ← getFunction vm target
  assert vm (callee.nargs == arguments.length)
  pushArguments arguments
  enterCall vm target
  interpret vm fuel
  stackPop

/-- The member `run(target)`. -/
def run0 {H : Type} (vm : VirtualMachine H) (fuel : Nat) (target : Nat) : Exec H Value := do
  let callee ← getFunction vm target
  assert vm (callee.nargs == 0)
  enterCall vm target
  interpret vm fuel
  stackPop

/-! ## Vocabulary of the specification -/

/-- The binary operation the specification attaches to an arithmetic operation code:
`left op right` for `INT_ADD`, `INT_SUB`, `INT_MUL`. -/
def specArith : OpCode → Option (Int → Int → Int)
  | OpCode.INT_ADD => some fun left right => left + right
  | OpCode.INT_SUB => some fun left right => left - right
  | OpCode.INT_MUL => some fun left right => left * right
  | _ => none

/-! ## Sample machines and states -/

/-- A machine over the trivial heap: the given function table and build mode, no
primitives, an allocator that knows no slot, and a division instruction that traps on a
zero divisor. -/
def sampleMachine (functions : List FunctionDef) (ndebug : Bool) : VirtualMachine Unit :=
  { functions := functions
    primitives := []
    ndebug := ndebug
    allocateEmptyObject := fun h => (0, h)
    lookupSlot := fun _ _ _ => none
    transitionLayout := fun h object _ => (none, object, h)
    getValue := fun _ _ _ => Value.raw 0
    setValue := fun h _ _ _ => h
    systemCollect := fun h => h
    defaultDescriptor := 0
    nativeDivByZero := fun _ => none }

/-- A stack of capacity `cap` holding `vs` (first element deepest); slots never written
hold `fill`. -/
def stackOf (cap : Nat) (vs : List Value) (fill : Value) : Stack :=
  { cap := cap, mem := fun i => vs.getD i fill, top := vs.length }

/-- A state over the trivial heap. -/
def stateOf (stack : Stack) (fn : Nat) (ip : InstrPtr) (bp : Nat) : State Unit :=
  { stack := stack, fn := fn, ip := ip, bp := bp, heap := () }

/-- The function `add2` of the specification scenario: two arguments, no registers. -/
def add2 : FunctionDef :=
  { nargs := 2
    nregs := 0
    instructions :=
      [⟨OpCode.PUSH_FROM_VAR, 0⟩, ⟨OpCode.PUSH_FROM_VAR, 1⟩, ⟨OpCode.INT_ADD, 0⟩,
       ⟨OpCode.FUNCTION_RETURN, 0⟩, END_SECTION] }

/-- A function made of the three arithmetic instructions and the six conditional jumps,
each jump with immediate 5. -/
def arithJumps : FunctionDef :=
  { nargs := 0
    nregs := 0
    instructions :=
      [⟨OpCode.INT_ADD, 0⟩, ⟨OpCode.INT_SUB, 0⟩, ⟨OpCode.INT_MUL, 0⟩,
       ⟨OpCode.INT_JMP_EQ, 5⟩, ⟨OpCode.INT_JMP_NEQ, 5⟩, ⟨OpCode.INT_JMP_GT, 5⟩,
       ⟨OpCode.INT_JMP_GE, 5⟩, ⟨OpCode.INT_JMP_LT, 5⟩, ⟨OpCode.INT_JMP_LE, 5⟩, END_SECTION] }

/-- A function with one argument whose body is just the end marker. -/
def unary : FunctionDef :=
  { nargs := 1, nregs := 0, instructions := [END_SECTION] }

/-- A function that calls function 1 and then ends. -/
def callsOne : FunctionDef :=
  { nargs := 0, nregs := 0, instructions := [⟨OpCode.FUNCTION_CALL, 1⟩, END_SECTION] }

/-- A function without arguments or registers that pushes 7 and returns. -/
def returnsSeven : FunctionDef :=
  { nargs := 0
    nregs := 0
    instructions := [⟨OpCode.INT_PUSH_CONSTANT, 7⟩, ⟨OpCode.FUNCTION_RETURN, 0⟩, END_SECTION] }

/-- A function with one argument and one register that stores into local 1 and reads it
back. -/
def storeLoad : FunctionDef :=
  { nargs := 1
    nregs := 1
    instructions := [⟨OpCode.POP_INTO_VAR, 1⟩, ⟨OpCode.PUSH_FROM_VAR, 1⟩, END_SECTION] }

/-! ## JIT call bridge -/

/-- The raw encoding of a value, `Om::RawValue`. -/
abbrev RawValue := Nat

/-- The fields of `Config` read by this file. -/
structure Config where
  passParam : Bool
  verbose : Bool

/-- Modelled from the spec: the raw view of `Om::Value` (its header is not among the
sources), taken as a parameter.  `raw` is `Value::raw()`, `ofRaw r` is the constructor
`Value(Om::AS_RAW, r)`, the value whose raw encoding is `r`. -/
structure RawCodec where
  raw : Value → RawValue
  ofRaw : RawValue → Value
  raw_ofRaw : ∀ r, raw (ofRaw r) = r

/-- A compiled function, `JitFunction`: called with the execution context and the raw
arguments that were passed, it answers a raw result and may change the context. -/
abbrev JitFunction (H : Type) := List RawValue → Exec H RawValue

/-- The member `callJitFunction` (the trace output under `cfg_->verbose` is omitted). -/
def callJitFunction {H : Type} (cfg : Config) (codec : RawCodec)
    (jitFunction : JitFunction H) (nargs : Nat) : Exec H Value := do
  let result ←
    if cfg.passParam then
      match nargs with
      | 0 => jitFunction []
      | 1 => do
          let p1 ← pop
          jitFunction [codec.raw p1]
      | 2 => do
          let p2 ← pop
          let p1 ← pop
          jitFunction [codec.raw p1, codec.raw p2]
      | 3 => do
          let p3 ← pop
          let p2 ← pop
          let p1 ← pop
          jitFunction [codec.raw p1, codec.raw p2, codec.raw p3]
      | _ => raise Error.needMoreParameterHandlers
    else
      jitFunction []
  pure (codec.ofRaw result)

/-- The top `n` values of the stack, in the order they were pushed. -/
def topValues {H : Type} (s : State H) (n : Nat) : List Value :=
  (List.range n).map fun i => s.stack.mem (s.stack.top - n + i)

/-- The state with the top `n` values popped. -/
def popped {H : Type} (s : State H) (n : Nat) : State H :=
  { s with stack := { s.stack with top := s.stack.top - n } }

/-! ## GC marking adapter (`marking.hpp`) -/

/-- A cell pointer, `Cell*` or `void*`; `none` is the null pointer. -/
abbrev CellPtr := Option Nat

/-- One call of `MM_MarkingScheme::markObject(thread, object, ...)` made by the marker:
the object passed, and the third argument when the call passes one. -/
structure MarkCall where
  object : CellPtr
  third : Option Bool
  deriving DecidableEq, Repr

/-- The method `Marker::edge`: the calls of `markObject` made so far, extended by the
calls this invocation makes. -/
def Marker.edge (_a b : CellPtr) (calls : List MarkCall) : List MarkCall :=
  calls ++ [⟨b, none⟩]

/-- The method `Marker::rootEdge`. -/
def Marker.rootEdge (_a b : CellPtr) (calls : List MarkCall) : List MarkCall :=
  if b ≠ none then calls ++ [⟨b, some true⟩] else calls

/-! ## A sample allocator -/

/-- An object of the sample allocator: its slots with their values, in insertion order. -/
abbrev SampleObject := List (SlotId × Value)

/-- The heap of the sample allocator: the object stored at each reference. -/
abbrev SampleHeap := List SampleObject

/-- The position of slot `sid` in an object. -/
def slotIndex (sid : SlotId) : SampleObject → Option Nat
  | [] => none
  | (k, _) :: rest => if k = sid then some 0 else (slotIndex sid rest).map fun i => i + 1

/-- The object with the value at position `d` replaced by `v`. -/
def storeAt : SampleObject → Nat → Value → SampleObject
  | [], _, _ => []
  | (k, _) :: rest, 0, v => (k, v) :: rest
  | slot :: rest, d + 1, v => slot :: storeAt rest d v

/-- A machine over the sample heap.  Objects start without slots; a layout transition
appends the new slot; `lookupSlot` answers the position of the slot; `getValue` and
`setValue` read and write the value at a position.  When `moving` is set, a layout
transition relocates the object: the grown object is stored at a fresh reference, which
the rooted reference then holds, and the old cell is emptied. -/
def heapMachine (functions : List FunctionDef) (ndebug moving : Bool) :
    VirtualMachine SampleHeap :=
  { functions := functions
    primitives := []
    ndebug := ndebug
    allocateEmptyObject := fun h => (h.length, h ++ [[]])
    lookupSlot := fun h object sid => slotIndex sid (h.getD object [])
    transitionLayout := fun h object sid =>
      if moving then
        (some 1, h.length, h.set object [] ++ [h.getD object [] ++ [(sid, Value.raw 0)]])
      else
        (some 1, object, h.set object (h.getD object [] ++ [(sid, Value.raw 0)]))
    getValue := fun h object d => ((h.getD object []).getD d (0, Value.raw 0)).2
    setValue := fun h object d v => h.set object (storeAt (h.getD object []) d v)
    systemCollect := fun h => h
    defaultDescriptor := 0
    nativeDivByZero := fun _ => none }

/-- A state over the sample heap. -/
def heapState (stack : Stack) (fn : Nat) (ip : InstrPtr) (bp : Nat) (heap : SampleHeap) :
    State SampleHeap :=
  { stack := stack, fn := fn, ip := ip, bp := bp, heap := heap }

/-- The sample raw view: a raw value is its own encoding, an integer is encoded by its
48-bit pattern, every other value by a tag. -/
def sampleCodec : RawCodec :=
  { raw := fun v =>
      match v with
      | Value.raw bits => bits
      | Value.int48 i => (i % 2 ^ 48).toNat
      | Value.uint48 n => 2 ^ 48 + n
      | Value.ref r => 2 ^ 49 + r
      | Value.ptr _ => 2 ^ 50
    ofRaw := fun r => Value.raw r
    raw_ofRaw := fun _ => rfl }

/-- A compiled function that answers the decimal number spelled by its arguments and
leaves the context alone. -/
def sampleJit : JitFunction Unit := fun args s =>
  Res.ok (args.foldl (fun acc x => acc * 10 + x) 0) s

/-- A machine like `sampleMachine` whose division instruction yields 0 for a zero divisor
instead of trapping. -/
def quietDivMachine (functions : List FunctionDef) (ndebug : Bool) : VirtualMachine Unit :=
  { sampleMachine functions ndebug with nativeDivByZero := fun _ => some 0 }

/-- A function exercising the remaining instructions used in the examples. -/
def misc : FunctionDef :=
  { nargs := 0
    nregs := 0
    instructions :=
      [⟨OpCode.JMP, 2⟩, ⟨OpCode.CALL_INDIRECT, 0⟩, ⟨OpCode.INT_DIV, 0⟩,
       ⟨OpCode.PUSH_FROM_OBJECT, 7⟩, ⟨OpCode.POP_INTO_OBJECT, 7⟩, END_SECTION] }

/-! ## Basic facts about the embedding -/

theorem bind_apply {H α β : Type} (x : Exec H α) (f : α → Exec H β) (s : State H) :
    (x >>= f) s = match x s with
      | Res.ok a s1 => f a s1
      | Res.fail e s1 => Res.fail e s1 := rfl

theorem pure_apply {H α : Type} (a : α) (s : State H) :
    (pure a : Exec H α) s = Res.ok a s := rfl

theorem fetch_eq {H : Type} (vm : VirtualMachine H) (s : State H) (i : Instruction)
    (h : instrAt vm s.ip = some i) : fetch vm s = Res.ok i s := by
  simp [fetch, h]

theorem immediate_eq {H : Type} (vm : VirtualMachine H) (s : State H) (i : Instruction)
    (h : instrAt vm s.ip = some i) : immediate vm s = Res.ok i.immediate s := by
  simp [immediate, bind_apply, fetch_eq vm s i h, pure_apply]

/-- Popping the two operands `left` (deeper) and `right` (top) as integers, then running
`body`, is `body right left` on the stack lowered by two. -/
theorem pop_two_ints {H α : Type} (s : State H) (left right : Int)
    (body : Int → Int → Exec H α)
    (h2 : 2 ≤ s.stack.top)
    (hr : s.stack.mem (s.stack.top - 1) = Value.int48 right)
    (hl : s.stack.mem (s.stack.top - 2) = Value.int48 left) :
    (do
      let r ← (← stackPop).getInt48
      let l ← (← stackPop).getInt48
      body r l : Exec H α) s
      = body right left { s with stack := { s.stack with top := s.stack.top - 2 } } := by
  have h0 : 0 < s.stack.top := by omega
  have h1 : 0 < s.stack.top - 1 := by omega
  have h3 : s.stack.top - 1 - 1 = s.stack.top - 2 := by omega
  simp [bind_apply, stackPop, Value.getInt48, h0, h1, hr, h3, hl, Exec.pure]

theorem step_eq {H : Type} (vm : VirtualMachine H) (s : State H) (i : Instruction)
    (h : instrAt vm s.ip = some i) : step vm s = dispatch vm i.opCode s := by
  simp [step, bind_apply, fetch_eq vm s i h]

/-! ## Arithmetic handlers -/

/-- The state left by `push` of `v` after the two operands were popped. -/
theorem push_after_pop_two {H : Type} (s : State H) (v : Value)
    (h2 : 2 ≤ s.stack.top) (hc : s.stack.top ≤ s.stack.cap) :
    push v { s with stack := { s.stack with top := s.stack.top - 2 } }
      = Res.ok () { s with stack := { s.stack with
          mem := Function.update s.stack.mem (s.stack.top - 2) v,
          top := s.stack.top - 1 } } := by
  have h4 : s.stack.top - 2 < s.stack.cap := by omega
  have h5 : s.stack.top - 2 + 1 = s.stack.top - 1 := by omega
  simp [push, stackPush, h4, h5]

theorem doIntAdd_eq {H : Type} (s : State H) (left right : Int)
    (h2 : 2 ≤ s.stack.top) (hc : s.stack.top ≤ s.stack.cap)
    (hr : s.stack.mem (s.stack.top - 1) = Value.int48 right)
    (hl : s.stack.mem (s.stack.top - 2) = Value.int48 left) :
    doIntAdd s = Res.ok () { s with stack := { s.stack with
      mem := Function.update s.stack.mem (s.stack.top - 2) (Value.ofInt48 (left + right)),
      top := s.stack.top - 1 } } := by
  unfold doIntAdd
  rw [pop_two_ints s left right _ h2 hr hl]
  exact push_after_pop_two s _ h2 hc

theorem doIntSub_eq {H : Type} (s : State H) (left right : Int)
    (h2 : 2 ≤ s.stack.top) (hc : s.stack.top ≤ s.stack.cap)
    (hr : s.stack.mem (s.stack.top - 1) = Value.int48 right)
    (hl : s.stack.mem (s.stack.top - 2) = Value.int48 left) :
    doIntSub s = Res.ok () { s with stack := { s.stack with
      mem := Function.update s.stack.mem (s.stack.top - 2) (Value.ofInt48 (left - right)),
      top := s.stack.top - 1 } } := by
  unfold doIntSub
  rw [pop_two_ints s left right _ h2 hr hl]
  exact push_after_pop_two s _ h2 hc

theorem doIntMul_eq {H : Type} (s : State H) (left right : Int)
    (h2 : 2 ≤ s.stack.top) (hc : s.stack.top ≤ s.stack.cap)
    (hr : s.stack.mem (s.stack.top - 1) = Value.int48 right)
    (hl : s.stack.mem (s.stack.top - 2) = Value.int48 left) :
    doIntMul s = Res.ok () { s with stack := { s.stack with
      mem := Function.update s.stack.mem (s.stack.top - 2) (Value.ofInt48 (left * right)),
      top := s.stack.top - 1 } } := by
  unfold doIntMul
  rw [pop_two_ints s left right _ h2 hr hl]
  exact push_after_pop_two s _ h2 hc

/-- C8 (the code as written): for `INT_ADD`, `INT_SUB`, `INT_MUL` on a stack whose top two
values are the integers `left` (deeper) and `right` (top), one dispatch step completes,
stores `left op right` in the slot of the left operand, lowers the cursor by one and
leaves every slot below the operands unchanged, but the instruction pointer is the one
the step started with: the handlers do not advance `ip_`. -/
theorem int_arith_step_keeps_ip {H : Type} (vm : VirtualMachine H) (s : State H)
    (op : OpCode) (k : Immediate) (f : Int → Int → Int) (left right : Int)
    (hop : specArith op = some f)
    (hi : instrAt vm s.ip = some ⟨op, k⟩)
    (h2 : 2 ≤ s.stack.top) (hc : s.stack.top ≤ s.stack.cap)
    (hr : s.stack.mem (s.stack.top - 1) = Value.int48 right)
    (hl : s.stack.mem (s.stack.top - 2) = Value.int48 left) :
    ∃ s1, step vm s = Res.ok () s1 ∧
      s1.stack.top = s.stack.top - 1 ∧
      s1.stack.mem (s.stack.top - 2) = Value.ofInt48 (f left right) ∧
      (∀ j, j < s.stack.top - 2 → s1.stack.mem j = s.stack.mem j) ∧
      s1.ip = s.ip ∧ s1.ip ≠ ⟨s.ip.seg, s.ip.off + 1⟩ := by
  rw [step_eq vm s _ hi]
  have hne : s.ip ≠ ⟨s.ip.seg, s.ip.off + 1⟩ := by
    intro h
    have h1 := congrArg InstrPtr.off h
    simp at h1
  have hbelow : ∀ (v : Value) (j : Nat), j < s.stack.top - 2 →
      Function.update s.stack.mem (s.stack.top - 2) v j = s.stack.mem j := by
    intro v j hj
    exact Function.update_noteq (Nat.ne_of_lt hj) v s.stack.mem
  cases op <;> simp [specArith] at hop
  · subst hop
    exact ⟨_, doIntAdd_eq s left right h2 hc hr hl, rfl, by simp, hbelow _, rfl, hne⟩
  · subst hop
    exact ⟨_, doIntSub_eq s left right h2 hc hr hl, rfl, by simp, hbelow _, rfl, hne⟩
  · subst hop
    exact ⟨_, doIntMul_eq s left right h2 hc hr hl, rfl, by simp, hbelow _, rfl, hne⟩

/-- Witness for `int_arith_step_keeps_ip`: `INT_SUB` at offset 1 on the stack `[10, 3]`
stores `7` and stays at offset 1. -/
theorem int_arith_step_keeps_ip_witness :
    (specArith OpCode.INT_SUB = some fun left right => left - right) ∧
    instrAt (sampleMachine [arithJumps] false)
      (stateOf (stackOf 8 [Value.int48 10, Value.int48 3] (Value.raw 0)) 0 ⟨0, 1⟩ 0).ip
      = some ⟨OpCode.INT_SUB, 0⟩ ∧
    ∃ s1, step (sampleMachine [arithJumps] false)
        (stateOf (stackOf 8 [Value.int48 10, Value.int48 3] (Value.raw 0)) 0 ⟨0, 1⟩ 0)
        = Res.ok () s1 ∧
      s1.stack.top = 1 ∧ s1.stack.mem 0 = Value.int48 7 ∧ s1.ip = ⟨0, 1⟩ :=
  ⟨rfl, rfl, by
    obtain ⟨s1, h1, h2, h3, _, h5, _⟩ :=
      int_arith_step_keeps_ip (sampleMachine [arithJumps] false)
        (stateOf (stackOf 8 [Value.int48 10, Value.int48 3] (Value.raw 0)) 0 ⟨0, 1⟩ 0)
        OpCode.INT_SUB 0 (fun left right => left - right) 10 3 rfl rfl
        (by decide) (by decide) rfl rfl
    exact ⟨s1, h1, h2, h3, h5⟩⟩

/-! ## Conditional jumps -/

theorem doIntJmpEq_not_taken {H : Type} (vm : VirtualMachine H) (s : State H)
    (left right : Int)
    (h2 : 2 ≤ s.stack.top)
    (hr : s.stack.mem (s.stack.top - 1) = Value.int48 right)
    (hl : s.stack.mem (s.stack.top - 2) = Value.int48 left)
    (hne : left ≠ right) :
    doIntJmpEq vm s
      = Res.ok () { s with stack := { s.stack with top := s.stack.top - 2 } } := by
  unfold doIntJmpEq
  rw [pop_two_ints s left right _ h2 hr hl]
  simp [hne, pure_apply]

theorem doIntJmpLt_eq {H : Type} (vm : VirtualMachine H) (s : State H)
    (k : Immediate) (op : OpCode) (left right : Int)
    (hi : instrAt vm s.ip = some ⟨op, k⟩)
    (h2 : 2 ≤ s.stack.top)
    (hr : s.stack.mem (s.stack.top - 1) = Value.int48 right)
    (hl : s.stack.mem (s.stack.top - 2) = Value.int48 left) :
    doIntJmpLt vm s
      = Res.ok () { s with
          stack := { s.stack with top := s.stack.top - 2 },
          ip := { s.ip with off := s.ip.off +
            (if wrapInt32 left < wrapInt32 right then k + 1 else 1) } } := by
  unfold doIntJmpLt
  rw [pop_two_ints s left right _ h2 hr hl]
  have him := immediate_eq vm { s with stack := { s.stack with top := s.stack.top - 2 } } _ hi
  by_cases hlt : wrapInt32 left < wrapInt32 right
  · simp [hlt, bind_apply, him, advance]
  · simp [hlt, advance]

/-- C9 (the code as written): `INT_JMP_EQ` on two integer operands that differ pops both
operands, pushes nothing, and completes with the instruction pointer it started with: on
the branch not taken the handler neither jumps nor advances `ip_`. -/
theorem int_jmp_eq_not_taken_keeps_ip {H : Type} (vm : VirtualMachine H) (s : State H)
    (k : Immediate) (left right : Int)
    (hi : instrAt vm s.ip = some ⟨OpCode.INT_JMP_EQ, k⟩)
    (h2 : 2 ≤ s.stack.top)
    (hr : s.stack.mem (s.stack.top - 1) = Value.int48 right)
    (hl : s.stack.mem (s.stack.top - 2) = Value.int48 left)
    (hne : left ≠ right) :
    ∃ s1, step vm s = Res.ok () s1 ∧
      s1.stack.top = s.stack.top - 2 ∧ s1.stack.mem = s.stack.mem ∧
      s1.ip = s.ip ∧ s1.ip ≠ ⟨s.ip.seg, s.ip.off + 1⟩ := by
  rw [step_eq vm s _ hi]
  refine ⟨_, doIntJmpEq_not_taken vm s left right h2 hr hl hne, rfl, rfl, rfl, ?_⟩
  intro h
  have h1 := congrArg InstrPtr.off h
  simp at h1

/-- Witness for `int_jmp_eq_not_taken_keeps_ip`: `INT_JMP_EQ 5` at offset 3 on the stack
`[1, 2]` empties the stack and stays at offset 3. -/
theorem int_jmp_eq_not_taken_keeps_ip_witness :
    instrAt (sampleMachine [arithJumps] false)
      (stateOf (stackOf 8 [Value.int48 1, Value.int48 2] (Value.raw 0)) 0 ⟨0, 3⟩ 0).ip
      = some ⟨OpCode.INT_JMP_EQ, 5⟩ ∧
    ∃ s1, step (sampleMachine [arithJumps] false)
        (stateOf (stackOf 8 [Value.int48 1, Value.int48 2] (Value.raw 0)) 0 ⟨0, 3⟩ 0)
        = Res.ok () s1 ∧
      s1.stack.top = 0 ∧ s1.ip = ⟨0, 3⟩ :=
  ⟨rfl, by
    obtain ⟨s1, h1, h2, _, h4, _⟩ :=
      int_jmp_eq_not_taken_keeps_ip (sampleMachine [arithJumps] false)
        (stateOf (stackOf 8 [Value.int48 1, Value.int48 2] (Value.raw 0)) 0 ⟨0, 3⟩ 0)
        5 1 2 rfl (by decide) rfl rfl (by decide)
    exact ⟨s1, h1, h2, h4⟩⟩

/-- C10 (the code as written): `INT_JMP_LT` on the integer operands `left` (pushed first)
and `right` completes, pops both, and takes the jump exactly when the 32-bit truncation of
`left` is below the 32-bit truncation of `right`; the decision is not made on the 48-bit
values. -/
theorem int_jmp_lt_compares_truncations {H : Type} (vm : VirtualMachine H) (s : State H)
    (k : Immediate) (left right : Int)
    (hi : instrAt vm s.ip = some ⟨OpCode.INT_JMP_LT, k⟩)
    (h2 : 2 ≤ s.stack.top)
    (hr : s.stack.mem (s.stack.top - 1) = Value.int48 right)
    (hl : s.stack.mem (s.stack.top - 2) = Value.int48 left) :
    ∃ s1, step vm s = Res.ok () s1 ∧
      s1.stack.top = s.stack.top - 2 ∧
      s1.ip = ⟨s.ip.seg, s.ip.off +
        (if wrapInt32 left < wrapInt32 right then k + 1 else 1)⟩ := by
  rw [step_eq vm s _ hi]
  exact ⟨_, doIntJmpLt_eq vm s k _ left right hi h2 hr hl, rfl, rfl⟩

/-- Witness for `int_jmp_lt_compares_truncations`: with `left = 2 ^ 32` and `right = 1`,
both inside the 48-bit range and `left` not below `right`, `INT_JMP_LT 5` at offset 7
takes the jump to offset 13. -/
theorem int_jmp_lt_compares_truncations_witness :
    instrAt (sampleMachine [arithJumps] false)
      (stateOf (stackOf 8 [Value.int48 4294967296, Value.int48 1] (Value.raw 0)) 0 ⟨0, 7⟩ 0).ip
      = some ⟨OpCode.INT_JMP_LT, 5⟩ ∧
    ((-2 : Int) ^ 47 ≤ 4294967296 ∧ (4294967296 : Int) < 2 ^ 47) ∧
    ¬ ((4294967296 : Int) < 1) ∧
    ∃ s1, step (sampleMachine [arithJumps] false)
        (stateOf (stackOf 8 [Value.int48 4294967296, Value.int48 1] (Value.raw 0)) 0 ⟨0, 7⟩ 0)
        = Res.ok () s1 ∧
      s1.stack.top = 0 ∧ s1.ip = ⟨0, 13⟩ :=
  ⟨rfl, by decide, by decide, by
    obtain ⟨s1, h1, h2, h3⟩ :=
      int_jmp_lt_compares_truncations (sampleMachine [arithJumps] false)
        (stateOf (stackOf 8 [Value.int48 4294967296, Value.int48 1] (Value.raw 0)) 0 ⟨0, 7⟩ 0)
        5 4294967296 1 rfl (by decide) rfl rfl
    exact ⟨s1, h1, h2, h3⟩⟩

theorem getFunction_eq {H : Type} (vm : VirtualMachine H) (s : State H) (index : Nat)
    (f : FunctionDef) (h : vm.functions[index]? = some f) :
    getFunction vm index s = Res.ok f s := by
  simp [getFunction, h]

/-! ## The dispatch loop has no normal exit -/

theorem bind_never_ok_left {H α β : Type} (x : Exec H α) (f : α → Exec H β)
    (hx : ∀ s a s1, x s ≠ Res.ok a s1) (s : State H) (b : β) (s2 : State H) :
    (x >>= f) s ≠ Res.ok b s2 := by
  rw [bind_apply]
  cases h : x s with
  | ok a s1 => exact absurd h (hx s a s1)
  | fail e s1 => simp

theorem bind_never_ok_right {H α β : Type} (x : Exec H α) (f : α → Exec H β)
    (hf : ∀ a s b s2, f a s ≠ Res.ok b s2) (s : State H) (b : β) (s2 : State H) :
    (x >>= f) s ≠ Res.ok b s2 := by
  rw [bind_apply]
  cases h : x s with
  | ok a s1 => exact hf a s1 b s2
  | fail e s1 => simp

theorem interpret_never_ok {H : Type} (vm : VirtualMachine H) :
    ∀ (fuel : Nat) (s : State H) (a : Unit) (s1 : State H),
      interpret vm fuel s ≠ Res.ok a s1 := by
  intro fuel
  induction fuel with
  | zero => intro s a s1; simp [interpret, raise]
  | succ n ih =>
    intro s a s1
    unfold interpret
    apply bind_never_ok_right
    intro instr t b t2
    by_cases hend : instr = END_SECTION
    · simp [hend, raise]
    · simp only [ne_eq, hend, not_false_eq_true, if_true]
      apply bind_never_ok_right
      intro _ u c u2
      exact ih u c u2

theorem run_never_ok {H : Type} (vm : VirtualMachine H) (fuel target : Nat)
    (arguments : List Value) (s : State H) (v : Value) (s1 : State H) :
    run vm fuel target arguments s ≠ Res.ok v s1 := by
  unfold run
  apply bind_never_ok_right; intro callee t b t2
  apply bind_never_ok_right; intro _ t b t2
  apply bind_never_ok_right; intro _ t b t2
  apply bind_never_ok_right; intro _ t b t2
  apply bind_never_ok_left
  exact interpret_never_ok vm fuel

/-! ## Call frame protocol -/

/-- The state built by `enterCall` for a callee with `nargs` arguments. -/
theorem enterCall_eq {H : Type} (vm : VirtualMachine H) (s : State H) (target : Nat)
    (f : FunctionDef) (hf : vm.functions[target]? = some f)
    (hroom : s.stack.top + f.nargs + 3 ≤ s.stack.cap) :
    enterCall vm target s = Res.ok ()
      { s with
        stack := { s.stack with
          mem := Function.update (Function.update (Function.update s.stack.mem
            (s.stack.top + f.nargs) (Value.ofUint48 s.fn))
            (s.stack.top + f.nargs + 1) (Value.ptr (Pointer.instr s.ip)))
            (s.stack.top + f.nargs + 2) (Value.ptr (Pointer.slot s.bp)),
          top := s.stack.top + f.nargs + 3 },
        fn := target, ip := ⟨target, 0⟩, bp := s.stack.top + f.nargs + 3 } := by
  have h1 : s.stack.top + f.nargs ≤ s.stack.cap := by omega
  have h2 : s.stack.top + f.nargs < s.stack.cap := by omega
  have h3 : s.stack.top + f.nargs + 1 < s.stack.cap := by omega
  have h4 : s.stack.top + f.nargs + 2 < s.stack.cap := by omega
  simp [enterCall, bind_apply, getFunction_eq vm s target f hf, stackPushn, getState,
    stackPush, setFn, setIp, stackTop, setBp, h1, h2, h3, h4]

/-- The state built by `doFunctionReturn` in a frame whose three saved slots hold the
caller registers `fn0`, `ip0`, `bp0`. -/
theorem doFunctionReturn_eq {H : Type} (vm : VirtualMachine H) (s : State H)
    (g : FunctionDef) (fn0 : Nat) (ip0 : InstrPtr) (bp0 : Nat)
    (hg : vm.functions[s.fn]? = some g)
    (htop : 0 < s.stack.top)
    (hbp : s.bp ≤ s.stack.cap)
    (hframe : g.nargs + g.nregs + 3 ≤ s.bp)
    (h1 : s.stack.mem (s.bp - 1) = Value.ptr (Pointer.slot bp0))
    (h2 : s.stack.mem (s.bp - 2) = Value.ptr (Pointer.instr ip0))
    (h3 : s.stack.mem (s.bp - 3) = Value.uint48 fn0) :
    doFunctionReturn vm s = Res.ok ()
      { s with
        stack := { s.stack with
          mem := Function.update s.stack.mem (s.bp - 3 - (g.nargs + g.nregs))
            (s.stack.mem (s.stack.top - 1)),
          top := s.bp - 3 - (g.nargs + g.nregs) + 1 },
        fn := fn0, ip := ⟨ip0.seg, ip0.off + 1⟩, bp := bp0 } := by
  have a1 : 0 < s.bp := by omega
  have a2 : 0 < s.bp - 1 := by omega
  have a3 : 0 < s.bp - 1 - 1 := by omega
  have a4 : s.bp - 1 - 1 = s.bp - 2 := by omega
  have a5 : s.bp - 2 - 1 = s.bp - 3 := by omega
  have a6 : g.nargs + g.nregs ≤ s.bp - 3 := by omega
  have a7 : s.bp - 3 - (g.nargs + g.nregs) < s.stack.cap := by omega
  have a8 : 0 < s.bp - 2 := by omega
  simp [doFunctionReturn, exitCall, bind_apply, stackPop, getState, getFunction_eq vm _ _ g hg,
    stackRestore, htop, hbp, a1, a2, a3, a4, a5, a6, a7, a8, h1, h2, h3, Value.getSlotPtr,
    Value.getInstrPtr,
    Value.getUint48, setBp, setIp, setFn, stackPopn, stackPush, advance, Exec.pure]

/-! ## Entry points -/

/-- C1 (the code as written): `run(add2, [3, 4])` never completes normally, whatever the
build mode, the number of loop iterations allowed and the state it starts from (in
particular from an empty stack); so it never returns the integer 7.  The only exit of the
loop of `interpret` is the `throw` that follows it, and the `return stack_.pop()` of `run`
is never reached. -/
theorem run_add2_never_returns (ndebug : Bool) (fuel : Nat) (s : State Unit) (v : Value)
    (s1 : State Unit) :
    run (sampleMachine [add2] ndebug) fuel 0 [Value.int48 3, Value.int48 4] s
      ≠ Res.ok v s1 :=
  run_never_ok (sampleMachine [add2] ndebug) fuel 0 [Value.int48 3, Value.int48 4] s v s1

/-- C2 (amended): in a build with assertions enabled (`NDEBUG` not defined), for every
known target `f`, `run(f, args)` with `args.size() != f.nargs` fails at its `assert` and
leaves the whole state, in particular the stack contents and cursor, exactly as it was;
likewise `run(f)` when `f.nargs != 0`. -/
theorem run_arity_mismatch_asserts {H : Type} (vm : VirtualMachine H) (fuel target : Nat)
    (f : FunctionDef) (arguments : List Value) (s : State H)
    (hnd : vm.ndebug = false) (hf : vm.functions[target]? = some f) :
    (arguments.length ≠ f.nargs →
      run vm fuel target arguments s = Res.fail Error.assertion s) ∧
    (f.nargs ≠ 0 → run0 vm fuel target s = Res.fail Error.assertion s) := by
  constructor
  · intro hne
    have hne2 : ¬ f.nargs = arguments.length := fun h => hne h.symm
    simp [run, bind_apply, getFunction_eq vm s target f hf, assert, hnd, hne2, raise]
  · intro hne
    simp [run0, bind_apply, getFunction_eq vm s target f hf, assert, hnd, hne, raise]

/-- Witness for `run_arity_mismatch_asserts`: `add2` called with one argument, and with
none, in a build with assertions. -/
theorem run_arity_mismatch_asserts_witness :
    (sampleMachine [add2] false).ndebug = false ∧
    (sampleMachine [add2] false).functions[0]? = some add2 ∧
    [Value.int48 3].length ≠ add2.nargs ∧ add2.nargs ≠ 0 ∧
    run (sampleMachine [add2] false) 9 0 [Value.int48 3]
        (stateOf (stackOf 8 [] (Value.raw 0)) 0 ⟨0, 0⟩ 0)
      = Res.fail Error.assertion (stateOf (stackOf 8 [] (Value.raw 0)) 0 ⟨0, 0⟩ 0) ∧
    run0 (sampleMachine [add2] false) 9 0 (stateOf (stackOf 8 [] (Value.raw 0)) 0 ⟨0, 0⟩ 0)
      = Res.fail Error.assertion (stateOf (stackOf 8 [] (Value.raw 0)) 0 ⟨0, 0⟩ 0) :=
  ⟨rfl, rfl, by decide, by decide,
   (run_arity_mismatch_asserts (sampleMachine [add2] false) 9 0 add2 [Value.int48 3]
      (stateOf (stackOf 8 [] (Value.raw 0)) 0 ⟨0, 0⟩ 0) rfl rfl).1 (by decide),
   (run_arity_mismatch_asserts (sampleMachine [add2] false) 9 0 add2 [Value.int48 3]
      (stateOf (stackOf 8 [] (Value.raw 0)) 0 ⟨0, 0⟩ 0) rfl rfl).2 (by decide)⟩

/-- C2 (counterexample): in a build with `NDEBUG` the arity `assert` is compiled out.
`run(unary, [])` and `run(unary)` on the one-argument function `unary`, started on an
empty stack, do not fail at an arity check: they enter the call, move the cursor from 0
to 4 and fail only when the loop reaches the end marker. -/
theorem run_arity_mismatch_ndebug_counterexample :
    (sampleMachine [unary] true).functions[0]? = some unary ∧
    ([] : List Value).length ≠ unary.nargs ∧ unary.nargs ≠ 0 ∧
    (stateOf (stackOf 8 [] (Value.raw 0)) 0 ⟨0, 0⟩ 0).stack.top = 0 ∧
    (run (sampleMachine [unary] true) 1 0 []
        (stateOf (stackOf 8 [] (Value.raw 0)) 0 ⟨0, 0⟩ 0)).error?
      = some Error.reachedEndOfFunction ∧
    (run (sampleMachine [unary] true) 1 0 []
        (stateOf (stackOf 8 [] (Value.raw 0)) 0 ⟨0, 0⟩ 0)).state.stack.top = 4 ∧
    (run0 (sampleMachine [unary] true) 1 0
        (stateOf (stackOf 8 [] (Value.raw 0)) 0 ⟨0, 0⟩ 0)).error?
      = some Error.reachedEndOfFunction ∧
    (run0 (sampleMachine [unary] true) 1 0
        (stateOf (stackOf 8 [] (Value.raw 0)) 0 ⟨0, 0⟩ 0)).state.stack.top = 4 :=
  ⟨rfl, by decide, by decide, rfl, rfl, rfl, rfl, rfl⟩

/-! ## Local variables -/

theorem doPushFromVar_eq {H : Type} (vm : VirtualMachine H) (s : State H) (f : FunctionDef)
    (op : OpCode) (i : Immediate) (a : Nat)
    (hf : vm.functions[s.fn]? = some f)
    (hi : instrAt vm s.ip = some ⟨op, i⟩)
    (ha : argsBase s.bp f + i = (a : Int))
    (hacap : a < s.stack.cap) (htop : s.stack.top < s.stack.cap) :
    doPushFromVar vm s = Res.ok ()
      { s with
        stack := { s.stack with
          mem := Function.update s.stack.mem s.stack.top (s.stack.mem a),
          top := s.stack.top + 1 },
        ip := { s.ip with off := s.ip.off + 1 } } := by
  simp [doPushFromVar, bind_apply, getState, getFunction_eq vm s _ f hf, immediate_eq vm s _ hi,
    ha, readSlot, hacap, stackPush, htop, advance]

theorem doPopIntoVar_eq {H : Type} (vm : VirtualMachine H) (s : State H) (f : FunctionDef)
    (op : OpCode) (i : Immediate) (a : Nat)
    (hf : vm.functions[s.fn]? = some f)
    (hi : instrAt vm s.ip = some ⟨op, i⟩)
    (ha : argsBase s.bp f + i = (a : Int))
    (hacap : a < s.stack.cap) (htop : 0 < s.stack.top) :
    doPopIntoVar vm s = Res.ok ()
      { s with
        stack := { s.stack with
          mem := Function.update s.stack.mem a (s.stack.mem (s.stack.top - 1)),
          top := s.stack.top - 1 },
        ip := { s.ip with off := s.ip.off + 1 } } := by
  simp [doPopIntoVar, bind_apply, getState, getFunction_eq vm s _ f hf, immediate_eq vm s _ hi,
    ha, writeSlot, hacap, stackPop, htop, advance]

/-! ## Frame layout -/

/-- C5 (the code as written): `enterCall(target)` for a known target with `nargs`
arguments and `nregs` registers moves the cursor by `nargs + 3`: it reserves `nargs`
slots, not `nregs`.  The three saved slots below the new cursor hold the caller `fn`, `ip`
and `bp` in that order, `bp` is the new cursor, `fn` is the target, `ip` is the first
instruction of the callee, and the slots below the old cursor are untouched. -/
theorem enterCall_reserves_nargs {H : Type} (vm : VirtualMachine H) (s : State H)
    (target : Nat) (f : FunctionDef)
    (hf : vm.functions[target]? = some f)
    (hroom : s.stack.top + f.nargs + 3 ≤ s.stack.cap) :
    ∃ s1, enterCall vm target s = Res.ok () s1 ∧
      s1.stack.top = s.stack.top + f.nargs + 3 ∧
      s1.stack.mem (s1.stack.top - 3) = Value.ofUint48 s.fn ∧
      s1.stack.mem (s1.stack.top - 2) = Value.ptr (Pointer.instr s.ip) ∧
      s1.stack.mem (s1.stack.top - 1) = Value.ptr (Pointer.slot s.bp) ∧
      s1.bp = s1.stack.top ∧ s1.fn = target ∧ s1.ip = ⟨target, 0⟩ ∧
      (∀ j, j < s.stack.top → s1.stack.mem j = s.stack.mem j) := by
  refine ⟨_, enterCall_eq vm s target f hf hroom, rfl, ?_, ?_, ?_, rfl, rfl, rfl, ?_⟩
  · have e : s.stack.top + f.nargs + 3 - 3 = s.stack.top + f.nargs := by omega
    simp [e, Function.update_apply]
  · have e : s.stack.top + f.nargs + 3 - 2 = s.stack.top + f.nargs + 1 := by omega
    simp [e, Function.update_apply]
  · have e : s.stack.top + f.nargs + 3 - 1 = s.stack.top + f.nargs + 2 := by omega
    simp [e, Function.update_apply]
  · intro j hj
    have e1 : j ≠ s.stack.top + f.nargs := by omega
    have e2 : j ≠ s.stack.top + f.nargs + 1 := by omega
    have e3 : j ≠ s.stack.top + f.nargs + 2 := by omega
    simp [Function.update_apply, e1, e2, e3]

/-- Witness for `enterCall_reserves_nargs`: entering `add2` (two arguments, no register)
with its arguments `3, 4` on the stack moves the cursor from 2 to 7, where reserving
`nregs` slots would give 5. -/
theorem enterCall_reserves_nargs_witness :
    (sampleMachine [add2] false).functions[0]? = some add2 ∧
    add2.nargs = 2 ∧ add2.nregs = 0 ∧
    ∃ s1, enterCall (sampleMachine [add2] false) 0
        (stateOf (stackOf 16 [Value.int48 3, Value.int48 4] (Value.raw 0)) 0 ⟨0, 0⟩ 0)
        = Res.ok () s1 ∧
      s1.stack.top = 7 ∧ s1.bp = 7 ∧ s1.stack.top ≠ 2 + add2.nregs + 3 :=
  ⟨rfl, rfl, rfl, by
    obtain ⟨s1, h1, h2, _, _, _, h6, _⟩ :=
      enterCall_reserves_nargs (sampleMachine [add2] false)
        (stateOf (stackOf 16 [Value.int48 3, Value.int48 4] (Value.raw 0)) 0 ⟨0, 0⟩ 0)
        0 add2 rfl (by decide)
    exact ⟨s1, h1, h2, h6.trans h2, by rw [h2]; decide⟩⟩

/-- C3 (the code as written): let the caller stack have cursor `c`, let the caller push the
`nargs` arguments of `f` (cursor `c + nargs`), let `enterCall(f)` run, the callee push a
result `r` and execute `doFunctionReturn`.  Then the cursor is `c + nargs - nregs + 1`,
the result sits in slot `c + nargs - nregs`, and the slots below that are unchanged.  This
is `c + 1` only when `nargs = nregs`: `enterCall` reserved `nargs` slots while `exitCall`
pops `nargs + nregs`. -/
theorem call_then_return_cursor {H : Type} (vm : VirtualMachine H) (s : State H)
    (target : Nat) (f : FunctionDef) (r : Value) (c : Nat)
    (hf : vm.functions[target]? = some f)
    (hc : s.stack.top = c + f.nargs)
    (hregs : f.nregs ≤ c + f.nargs)
    (hroom : c + f.nargs + f.nargs + 4 ≤ s.stack.cap) :
    ∃ s3, (do enterCall vm target; stackPush r; doFunctionReturn vm : Exec H Unit) s
        = Res.ok () s3 ∧
      s3.stack.top = c + f.nargs - f.nregs + 1 ∧
      s3.stack.mem (c + f.nargs - f.nregs) = r ∧
      (∀ j, j < c + f.nargs - f.nregs → s3.stack.mem j = s.stack.mem j) := by
  have e1 := enterCall_eq vm s target f hf (by omega)
  obtain ⟨s1, hs1⟩ : ∃ s1 : State H, s1 = { s with
        stack := { s.stack with
          mem := Function.update (Function.update (Function.update s.stack.mem
            (s.stack.top + f.nargs) (Value.ofUint48 s.fn))
            (s.stack.top + f.nargs + 1) (Value.ptr (Pointer.instr s.ip)))
            (s.stack.top + f.nargs + 2) (Value.ptr (Pointer.slot s.bp)),
          top := s.stack.top + f.nargs + 3 },
        fn := target, ip := ⟨target, 0⟩, bp := s.stack.top + f.nargs + 3 } := ⟨_, rfl⟩
  rw [← hs1] at e1
  obtain ⟨s2, hs2⟩ : ∃ s2 : State H, s2 = { s1 with stack := { s1.stack with
      mem := Function.update s1.stack.mem s1.stack.top r, top := s1.stack.top + 1 } } :=
    ⟨_, rfl⟩
  have t1 : s1.stack.top = s.stack.top + f.nargs + 3 := by rw [hs1]
  have c1 : s1.stack.cap = s.stack.cap := by rw [hs1]
  have e2 : stackPush r s1 = Res.ok () s2 := by
    have : s1.stack.top < s1.stack.cap := by omega
    simp [stackPush, this, hs2]
  have b2 : s2.bp = s.stack.top + f.nargs + 3 := by rw [hs2, hs1]
  have t2 : s2.stack.top = s.stack.top + f.nargs + 4 := by rw [hs2]; simp [t1]
  have c2 : s2.stack.cap = s.stack.cap := by rw [hs2]; simp [c1]
  have f2 : s2.fn = target := by rw [hs2, hs1]
  have m2 : ∀ j, s2.stack.mem j =
      Function.update (Function.update (Function.update (Function.update s.stack.mem
            (s.stack.top + f.nargs) (Value.ofUint48 s.fn))
            (s.stack.top + f.nargs + 1) (Value.ptr (Pointer.instr s.ip)))
            (s.stack.top + f.nargs + 2) (Value.ptr (Pointer.slot s.bp)))
            (s.stack.top + f.nargs + 3) r j := by
    intro j; rw [hs2, hs1]
  have e3 := doFunctionReturn_eq vm s2 f (s.fn % 2 ^ 48) s.ip s.bp (by rw [f2]; exact hf)
    (by omega) (by omega) (by omega)
    (by rw [m2, b2]
        have : s.stack.top + f.nargs + 3 - 1 = s.stack.top + f.nargs + 2 := by omega
        simp [this, Function.update_apply])
    (by rw [m2, b2]
        have : s.stack.top + f.nargs + 3 - 2 = s.stack.top + f.nargs + 1 := by omega
        simp [this, Function.update_apply])
    (by rw [m2, b2]
        have : s.stack.top + f.nargs + 3 - 3 = s.stack.top + f.nargs := by omega
        simp [this, Function.update_apply, Value.ofUint48])
  have a0 : s2.bp - 3 - (f.nargs + f.nregs) = c + f.nargs - f.nregs := by omega
  have e : (do enterCall vm target; stackPush r; doFunctionReturn vm : Exec H Unit) s
      = doFunctionReturn vm s2 := by
    rw [bind_apply, e1]
    simp only []
    rw [bind_apply, e2]
  rw [e3] at e
  refine ⟨_, e, ?_, ?_, ?_⟩
  · simp [a0]
  · have t3 : s2.stack.top - 1 = s.stack.top + f.nargs + 3 := by omega
    show Function.update s2.stack.mem (s2.bp - 3 - (f.nargs + f.nregs))
      (s2.stack.mem (s2.stack.top - 1)) (c + f.nargs - f.nregs) = r
    rw [a0, Function.update_same, t3, m2, Function.update_same]
  · intro j hj
    have n0 : j ≠ c + f.nargs - f.nregs := by omega
    have n1 : j ≠ s.stack.top + f.nargs := by omega
    have n2 : j ≠ s.stack.top + f.nargs + 1 := by omega
    have n3 : j ≠ s.stack.top + f.nargs + 2 := by omega
    have n4 : j ≠ s.stack.top + f.nargs + 3 := by omega
    show Function.update s2.stack.mem (s2.bp - 3 - (f.nargs + f.nregs))
      (s2.stack.mem (s2.stack.top - 1)) j = s.stack.mem j
    rw [a0, Function.update_noteq n0, m2]
    simp [Function.update_apply, n1, n2, n3, n4]

/-- Witness for `call_then_return_cursor`: a call of `add2` with arguments `3, 4` from an
empty caller stack (`c = 0`) that returns `7` leaves the cursor at 3 with `7` in slot 2
and the argument `3` still in slot 0, where the caller expects cursor 1 and `7` in
slot 0. -/
theorem call_then_return_cursor_witness :
    (sampleMachine [add2] false).functions[0]? = some add2 ∧
    (stateOf (stackOf 16 [Value.int48 3, Value.int48 4] (Value.raw 0)) 0 ⟨0, 0⟩ 0).stack.top
      = 0 + add2.nargs ∧
    ∃ s3, (do enterCall (sampleMachine [add2] false) 0
              stackPush (Value.int48 7)
              doFunctionReturn (sampleMachine [add2] false) : Exec Unit Unit)
        (stateOf (stackOf 16 [Value.int48 3, Value.int48 4] (Value.raw 0)) 0 ⟨0, 0⟩ 0)
        = Res.ok () s3 ∧
      s3.stack.top = 3 ∧ s3.stack.mem 2 = Value.int48 7 ∧ s3.stack.mem 0 = Value.int48 3 :=
  ⟨rfl, rfl, by
    obtain ⟨s3, h1, h2, h3, h4⟩ :=
      call_then_return_cursor (sampleMachine [add2] false)
        (stateOf (stackOf 16 [Value.int48 3, Value.int48 4] (Value.raw 0)) 0 ⟨0, 0⟩ 0)
        0 add2 (Value.int48 7) 0 rfl rfl (by decide) (by decide)
    exact ⟨s3, h1, h2, h3, (h4 0 (by decide)).trans rfl⟩⟩

/-- C4 (the code as written): let the caller stack have cursor `c`, let the caller push the
`nargs` arguments of `f` (argument `i` in slot `c + i`, cursor `c + nargs`), and let
`enterCall(f)` run.  `PUSH_FROM_VAR i` as first instruction of the callee then pushes the
content of slot `c + nargs - nregs + i`: the address `bp - (3 + nargs + nregs) + i` is
`nargs - nregs` slots away from the slot of argument `i` in the frame that `enterCall`
laid out. -/
theorem push_from_var_after_enterCall {H : Type} (vm : VirtualMachine H) (s : State H)
    (target : Nat) (f : FunctionDef) (c i : Nat)
    (hf : vm.functions[target]? = some f)
    (hc : s.stack.top = c + f.nargs)
    (hi : i < f.nargs)
    (hinstr : instrAt vm ⟨target, 0⟩ = some ⟨OpCode.PUSH_FROM_VAR, (i : Int)⟩)
    (hregs : f.nregs ≤ c + f.nargs)
    (hroom : c + f.nargs + f.nargs + 4 ≤ s.stack.cap) :
    ∃ s2, (do enterCall vm target; step vm : Exec H Unit) s = Res.ok () s2 ∧
      s2.stack.top = c + f.nargs + f.nargs + 4 ∧
      s2.stack.mem (s2.stack.top - 1) = s.stack.mem (c + f.nargs - f.nregs + i) ∧
      (∀ j, j < c + f.nargs → s2.stack.mem j = s.stack.mem j) := by
  have e1 := enterCall_eq vm s target f hf (by omega)
  obtain ⟨s1, hs1⟩ : ∃ s1 : State H, s1 = { s with
        stack := { s.stack with
          mem := Function.update (Function.update (Function.update s.stack.mem
            (s.stack.top + f.nargs) (Value.ofUint48 s.fn))
            (s.stack.top + f.nargs + 1) (Value.ptr (Pointer.instr s.ip)))
            (s.stack.top + f.nargs + 2) (Value.ptr (Pointer.slot s.bp)),
          top := s.stack.top + f.nargs + 3 },
        fn := target, ip := ⟨target, 0⟩, bp := s.stack.top + f.nargs + 3 } := ⟨_, rfl⟩
  rw [← hs1] at e1
  have t1 : s1.stack.top = s.stack.top + f.nargs + 3 := by rw [hs1]
  have c1 : s1.stack.cap = s.stack.cap := by rw [hs1]
  have b1 : s1.bp = s.stack.top + f.nargs + 3 := by rw [hs1]
  have f1 : s1.fn = target := by rw [hs1]
  have i1 : s1.ip = ⟨target, 0⟩ := by rw [hs1]
  have m1 : ∀ j, s1.stack.mem j =
      Function.update (Function.update (Function.update s.stack.mem
            (s.stack.top + f.nargs) (Value.ofUint48 s.fn))
            (s.stack.top + f.nargs + 1) (Value.ptr (Pointer.instr s.ip)))
            (s.stack.top + f.nargs + 2) (Value.ptr (Pointer.slot s.bp)) j := by
    intro j; rw [hs1]
  have hinstr1 : instrAt vm s1.ip = some ⟨OpCode.PUSH_FROM_VAR, (i : Int)⟩ := by
    rw [i1]; exact hinstr
  have ha : argsBase s1.bp f + (i : Int) = ((c + f.nargs - f.nregs + i : Nat) : Int) := by
    unfold argsBase
    rw [b1]
    omega
  have e2 := doPushFromVar_eq vm s1 f _ _ (c + f.nargs - f.nregs + i) (by rw [f1]; exact hf)
    hinstr1 ha (by omega) (by omega)
  have e : (do enterCall vm target; step vm : Exec H Unit) s = doPushFromVar vm s1 := by
    rw [bind_apply, e1]
    simp only []
    rw [step_eq vm s1 _ hinstr1]
    rfl
  rw [e2] at e
  refine ⟨_, e, ?_, ?_, ?_⟩
  · show s1.stack.top + 1 = c + f.nargs + f.nargs + 4
    omega
  · show Function.update s1.stack.mem s1.stack.top (s1.stack.mem (c + f.nargs - f.nregs + i))
      (s1.stack.top + 1 - 1) = s.stack.mem (c + f.nargs - f.nregs + i)
    have n1 : c + f.nargs - f.nregs + i ≠ s.stack.top + f.nargs := by omega
    have n2 : c + f.nargs - f.nregs + i ≠ s.stack.top + f.nargs + 1 := by omega
    have n3 : c + f.nargs - f.nregs + i ≠ s.stack.top + f.nargs + 2 := by omega
    rw [Nat.add_sub_cancel, Function.update_same, m1]
    simp [Function.update_apply, n1, n2, n3]
  · intro j hj
    show Function.update s1.stack.mem s1.stack.top (s1.stack.mem (c + f.nargs - f.nregs + i)) j
      = s.stack.mem j
    have n0 : j ≠ s1.stack.top := by omega
    have n1 : j ≠ s.stack.top + f.nargs := by omega
    have n2 : j ≠ s.stack.top + f.nargs + 1 := by omega
    have n3 : j ≠ s.stack.top + f.nargs + 2 := by omega
    rw [Function.update_noteq n0, m1]
    simp [Function.update_apply, n1, n2, n3]

/-- Witness for `push_from_var_after_enterCall`: after the arguments `3, 4` of `add2` are
pushed on an empty stack (`c = 0`) and `add2` is entered, its first instruction
`PUSH_FROM_VAR 0` pushes the content of slot 2, a slot that `enterCall` reserved and
nobody wrote (it still holds the filler), not the argument `3` of slot 0. -/
theorem push_from_var_after_enterCall_witness :
    (sampleMachine [add2] false).functions[0]? = some add2 ∧
    instrAt (sampleMachine [add2] false) ⟨0, 0⟩ = some ⟨OpCode.PUSH_FROM_VAR, ((0 : Nat) : Int)⟩ ∧
    (stackOf 16 [Value.int48 3, Value.int48 4] (Value.raw 0)).mem 0 = Value.int48 3 ∧
    ∃ s2, (do enterCall (sampleMachine [add2] false) 0
              step (sampleMachine [add2] false) : Exec Unit Unit)
        (stateOf (stackOf 16 [Value.int48 3, Value.int48 4] (Value.raw 0)) 0 ⟨0, 0⟩ 0)
        = Res.ok () s2 ∧
      s2.stack.top = 8 ∧ s2.stack.mem (s2.stack.top - 1) = Value.raw 0 :=
  ⟨rfl, rfl, rfl, by
    obtain ⟨s2, h1, h2, h3, _⟩ :=
      push_from_var_after_enterCall (sampleMachine [add2] false)
        (stateOf (stackOf 16 [Value.int48 3, Value.int48 4] (Value.raw 0)) 0 ⟨0, 0⟩ 0)
        0 add2 0 0 rfl rfl (by decide) rfl (by decide) (by decide)
    exact ⟨s2, h1, h2, h3.trans rfl⟩⟩

/-! ## Call and return -/

theorem doFunctionCall_eq {H : Type} (vm : VirtualMachine H) (s : State H) (k : Immediate)
    (op : OpCode) (g : FunctionDef)
    (hcall : instrAt vm s.ip = some ⟨op, k⟩)
    (hg : vm.functions[immediateIndex k]? = some g)
    (hroom : s.stack.top + g.nargs + 3 ≤ s.stack.cap) :
    doFunctionCall vm s = Res.ok ()
      { s with
        stack := { s.stack with
          mem := Function.update (Function.update (Function.update s.stack.mem
            (s.stack.top + g.nargs) (Value.ofUint48 s.fn))
            (s.stack.top + g.nargs + 1) (Value.ptr (Pointer.instr s.ip)))
            (s.stack.top + g.nargs + 2) (Value.ptr (Pointer.slot s.bp)),
          top := s.stack.top + g.nargs + 3 },
        fn := immediateIndex k, ip := ⟨immediateIndex k, 0⟩,
        bp := s.stack.top + g.nargs + 3 } := by
  unfold doFunctionCall
  rw [bind_apply, immediate_eq vm s _ hcall]
  exact enterCall_eq vm s _ g hg hroom

/-- C6: let the caller state `s0` have `ip` at a `FUNCTION_CALL` of a known function `g`,
with room on the stack for the frame.  The call step completes in a state `s1`; and from
every later state `s2` of the callee that has the `fn` and `bp` of `s1`, the three saved
slots below `bp` as `s1` left them, at least one value above `bp` and `ip` at a
`FUNCTION_RETURN`, the return step completes with `fn`, `bp` restored to those of `s0`,
`ip` one past the call instruction, and the value that was on top of `s2` on top of the
stack, however many values the callee left above `bp`.  The frame is assumed to lie
inside the stack (`hframe`) and the caller function index to fit its 48-bit slot
(`hfn`). -/
theorem call_return_restores_registers {H : Type} (vm : VirtualMachine H) (s0 : State H)
    (k : Immediate) (g : FunctionDef)
    (hcall : instrAt vm s0.ip = some ⟨OpCode.FUNCTION_CALL, k⟩)
    (hg : vm.functions[immediateIndex k]? = some g)
    (hroom : s0.stack.top + g.nargs + 3 ≤ s0.stack.cap)
    (hfn : s0.fn < 2 ^ 48)
    (hframe : g.nregs ≤ s0.stack.top) :
    ∃ s1, step vm s0 = Res.ok () s1 ∧
      ∀ (s2 : State H) (k2 : Immediate),
        s2.fn = s1.fn → s2.bp = s1.bp → s2.stack.cap = s1.stack.cap →
        (∀ j, s1.bp - 3 ≤ j → j < s1.bp → s2.stack.mem j = s1.stack.mem j) →
        s2.bp < s2.stack.top →
        instrAt vm s2.ip = some ⟨OpCode.FUNCTION_RETURN, k2⟩ →
        ∃ s3, step vm s2 = Res.ok () s3 ∧
          s3.fn = s0.fn ∧ s3.bp = s0.bp ∧ s3.ip = ⟨s0.ip.seg, s0.ip.off + 1⟩ ∧
          0 < s3.stack.top ∧
          s3.stack.mem (s3.stack.top - 1) = s2.stack.mem (s2.stack.top - 1) := by
  have e1 : step vm s0 = doFunctionCall vm s0 := step_eq vm s0 _ hcall
  rw [doFunctionCall_eq vm s0 k _ g hcall hg hroom] at e1
  refine ⟨_, e1, ?_⟩
  intro s2 k2 hfn2 hbp2 hcap2 hsaved habove hret
  have hfn2 : s2.fn = immediateIndex k := hfn2
  have hbp2 : s2.bp = s0.stack.top + g.nargs + 3 := hbp2
  have hcap2 : s2.stack.cap = s0.stack.cap := hcap2
  have hsaved : ∀ j, s0.stack.top + g.nargs + 3 - 3 ≤ j → j < s0.stack.top + g.nargs + 3 →
      s2.stack.mem j = Function.update (Function.update (Function.update s0.stack.mem
            (s0.stack.top + g.nargs) (Value.ofUint48 s0.fn))
            (s0.stack.top + g.nargs + 1) (Value.ptr (Pointer.instr s0.ip)))
            (s0.stack.top + g.nargs + 2) (Value.ptr (Pointer.slot s0.bp)) j := hsaved
  have e2 : step vm s2 = doFunctionReturn vm s2 := step_eq vm s2 _ hret
  have e3 := doFunctionReturn_eq vm s2 g s0.fn s0.ip s0.bp (by rw [hfn2]; exact hg)
    (by omega) (by omega) (by omega)
    (by rw [hbp2, hsaved _ (by omega) (by omega)]
        have : s0.stack.top + g.nargs + 3 - 1 = s0.stack.top + g.nargs + 2 := by omega
        simp [this, Function.update_apply])
    (by rw [hbp2, hsaved _ (by omega) (by omega)]
        have : s0.stack.top + g.nargs + 3 - 2 = s0.stack.top + g.nargs + 1 := by omega
        simp [this, Function.update_apply])
    (by rw [hbp2, hsaved _ (by omega) (by omega)]
        have : s0.stack.top + g.nargs + 3 - 3 = s0.stack.top + g.nargs := by omega
        simp [this, Function.update_apply, Value.ofUint48]
        simpa using hfn)
  rw [e3] at e2
  refine ⟨_, e2, rfl, rfl, rfl, ?_, ?_⟩
  · show 0 < s2.bp - 3 - (g.nargs + g.nregs) + 1
    omega
  · show Function.update s2.stack.mem (s2.bp - 3 - (g.nargs + g.nregs))
      (s2.stack.mem (s2.stack.top - 1)) (s2.bp - 3 - (g.nargs + g.nregs) + 1 - 1)
      = s2.stack.mem (s2.stack.top - 1)
    rw [Nat.add_sub_cancel, Function.update_same]

/-- Witness for `call_return_restores_registers`: `callsOne` calls `returnsSeven` with one
pending operand on the stack; the callee returns with `9, 7` above its `bp`, and the
return step restores `fn = 0`, `bp = 0`, `ip` at offset 1 with `7` on top. -/
theorem call_return_restores_registers_witness :
    instrAt (sampleMachine [callsOne, returnsSeven] false)
      (stateOf (stackOf 16 [Value.int48 1] (Value.raw 0)) 0 ⟨0, 0⟩ 0).ip
      = some ⟨OpCode.FUNCTION_CALL, 1⟩ ∧
    (sampleMachine [callsOne, returnsSeven] false).functions[immediateIndex 1]?
      = some returnsSeven ∧
    ∃ s1, step (sampleMachine [callsOne, returnsSeven] false)
        (stateOf (stackOf 16 [Value.int48 1] (Value.raw 0)) 0 ⟨0, 0⟩ 0) = Res.ok () s1 ∧
      s1.fn = 1 ∧ s1.bp = 4 ∧
      ∃ s3, step (sampleMachine [callsOne, returnsSeven] false)
          (stateOf (stackOf 16 [Value.int48 1, Value.uint48 0,
              Value.ptr (Pointer.instr ⟨0, 0⟩), Value.ptr (Pointer.slot 0),
              Value.int48 9, Value.int48 7] (Value.raw 0)) 1 ⟨1, 1⟩ 4) = Res.ok () s3 ∧
        s3.fn = 0 ∧ s3.bp = 0 ∧ s3.ip = ⟨0, 1⟩ ∧
        s3.stack.mem (s3.stack.top - 1) = Value.int48 7 :=
  ⟨rfl, rfl, by
    obtain ⟨s1, h1, h2⟩ :=
      call_return_restores_registers (sampleMachine [callsOne, returnsSeven] false)
        (stateOf (stackOf 16 [Value.int48 1] (Value.raw 0)) 0 ⟨0, 0⟩ 0)
        1 returnsSeven rfl rfl (by decide) (by norm_num [stateOf]) (by decide)
    have e := doFunctionCall_eq (sampleMachine [callsOne, returnsSeven] false)
        (stateOf (stackOf 16 [Value.int48 1] (Value.raw 0)) 0 ⟨0, 0⟩ 0)
        1 OpCode.FUNCTION_CALL returnsSeven rfl rfl (by decide)
    have e0 := step_eq (sampleMachine [callsOne, returnsSeven] false)
        (stateOf (stackOf 16 [Value.int48 1] (Value.raw 0)) 0 ⟨0, 0⟩ 0)
        ⟨OpCode.FUNCTION_CALL, 1⟩ rfl
    have hs1 := (Res.ok.inj (h1.symm.trans (e0.trans e))).2
    subst hs1
    refine ⟨_, h1, rfl, rfl, ?_⟩
    obtain ⟨s3, g1, g2, g3, g4, _, g6⟩ := h2
      (stateOf (stackOf 16 [Value.int48 1, Value.uint48 0,
              Value.ptr (Pointer.instr ⟨0, 0⟩), Value.ptr (Pointer.slot 0),
              Value.int48 9, Value.int48 7] (Value.raw 0)) 1 ⟨1, 1⟩ 4) 0
      rfl rfl rfl
      (by
        intro j hj1 hj2
        have hj1 : 1 ≤ j := hj1
        have hj2 : j < 4 := hj2
        interval_cases j <;> rfl)
      (by decide) rfl
    exact ⟨s3, g1, g2, g3, g4, g6.trans rfl⟩⟩

/-- C7: in a state with a value `v` on top of the stack, whose `ip` is at `POP_INTO_VAR i`
followed by `PUSH_FROM_VAR i`, and where local `i` of the current frame (address
`bp - (3 + nargs + nregs) + i`) lies inside the stack, the two dispatch steps complete
with `v` on top, the cursor where it was, local `i` equal to `v`, `ip` advanced by two and
`fn`, `bp` unchanged. -/
theorem pop_then_push_var_round_trip {H : Type} (vm : VirtualMachine H) (s : State H)
    (f : FunctionDef) (i : Immediate)
    (hf : vm.functions[s.fn]? = some f)
    (hpop : instrAt vm s.ip = some ⟨OpCode.POP_INTO_VAR, i⟩)
    (hpush : instrAt vm ⟨s.ip.seg, s.ip.off + 1⟩ = some ⟨OpCode.PUSH_FROM_VAR, i⟩)
    (htop : 0 < s.stack.top) (hcap : s.stack.top ≤ s.stack.cap)
    (hlo : 0 ≤ argsBase s.bp f + i) (hhi : argsBase s.bp f + i < s.stack.cap) :
    ∃ s2, (do step vm; step vm : Exec H Unit) s = Res.ok () s2 ∧
      s2.stack.top = s.stack.top ∧
      s2.stack.mem (s.stack.top - 1) = s.stack.mem (s.stack.top - 1) ∧
      s2.stack.mem (argsBase s.bp f + i).toNat = s.stack.mem (s.stack.top - 1) ∧
      s2.ip = ⟨s.ip.seg, s.ip.off + 2⟩ ∧ s2.fn = s.fn ∧ s2.bp = s.bp := by
  obtain ⟨a, ha⟩ : ∃ a : Nat, argsBase s.bp f + i = (a : Int) :=
    ⟨(argsBase s.bp f + i).toNat, (Int.toNat_of_nonneg hlo).symm⟩
  have hacap : a < s.stack.cap := by omega
  have e1 := doPopIntoVar_eq vm s f _ i a hf hpop ha hacap htop
  obtain ⟨s1, hs1⟩ : ∃ s1 : State H, s1 = { s with
        stack := { s.stack with
          mem := Function.update s.stack.mem a (s.stack.mem (s.stack.top - 1)),
          top := s.stack.top - 1 },
        ip := { s.ip with off := s.ip.off + 1 } } := ⟨_, rfl⟩
  rw [← hs1] at e1
  have t1 : s1.stack.top = s.stack.top - 1 := by rw [hs1]
  have c1 : s1.stack.cap = s.stack.cap := by rw [hs1]
  have b1 : s1.bp = s.bp := by rw [hs1]
  have f1 : s1.fn = s.fn := by rw [hs1]
  have i1 : s1.ip = ⟨s.ip.seg, s.ip.off + 1⟩ := by rw [hs1]
  have m1 : ∀ j, s1.stack.mem j
      = Function.update s.stack.mem a (s.stack.mem (s.stack.top - 1)) j := by
    intro j; rw [hs1]
  have hpush1 : instrAt vm s1.ip = some ⟨OpCode.PUSH_FROM_VAR, i⟩ := by rw [i1]; exact hpush
  have e2 := doPushFromVar_eq vm s1 f _ i a (by rw [f1]; exact hf) hpush1
    (by rw [b1]; exact ha) (by omega) (by omega)
  have e : (do step vm; step vm : Exec H Unit) s = doPushFromVar vm s1 := by
    have e1d : dispatch vm (⟨OpCode.POP_INTO_VAR, i⟩ : Instruction).opCode s
        = Res.ok () s1 := e1
    rw [bind_apply, step_eq vm s _ hpop, e1d]
    simp only []
    rw [step_eq vm s1 _ hpush1]
    rfl
  rw [e2] at e
  have ha2 : (argsBase s.bp f + i).toNat = a := by omega
  refine ⟨_, e, ?_, ?_, ?_, ?_, f1, b1⟩
  · show s1.stack.top + 1 = s.stack.top
    omega
  · show Function.update s1.stack.mem s1.stack.top (s1.stack.mem a) (s.stack.top - 1)
      = s.stack.mem (s.stack.top - 1)
    rw [t1, Function.update_same, m1, Function.update_same]
  · show Function.update s1.stack.mem s1.stack.top (s1.stack.mem a)
      ((argsBase s.bp f + i).toNat) = s.stack.mem (s.stack.top - 1)
    rw [ha2, m1, Function.update_same]
    by_cases hat : a = s1.stack.top
    · rw [hat, Function.update_same]
    · rw [Function.update_noteq hat, m1, Function.update_same]
  · show ({ s1.ip with off := s1.ip.off + 1 } : InstrPtr) = ⟨s.ip.seg, s.ip.off + 2⟩
    rw [i1]
    simp
    omega

/-- Witness for `pop_then_push_var_round_trip`: in a frame of `storeLoad` (one argument,
one register, `bp = 5`) with `42` on top, `POP_INTO_VAR 1; PUSH_FROM_VAR 1` ends with `42`
on top, cursor 6, local 1 (slot 1) equal to `42` and `ip` at offset 2. -/
theorem pop_then_push_var_round_trip_witness :
    (sampleMachine [storeLoad] false).functions[0]? = some storeLoad ∧
    instrAt (sampleMachine [storeLoad] false) ⟨0, 0⟩ = some ⟨OpCode.POP_INTO_VAR, 1⟩ ∧
    instrAt (sampleMachine [storeLoad] false) ⟨0, 0 + 1⟩ = some ⟨OpCode.PUSH_FROM_VAR, 1⟩ ∧
    argsBase 5 storeLoad + 1 = 1 ∧
    ∃ s2, (do step (sampleMachine [storeLoad] false)
              step (sampleMachine [storeLoad] false) : Exec Unit Unit)
        (stateOf (stackOf 16 [Value.int48 8, Value.raw 0, Value.uint48 0,
          Value.ptr (Pointer.instr ⟨0, 0⟩), Value.ptr (Pointer.slot 0), Value.int48 42]
          (Value.raw 0)) 0 ⟨0, 0⟩ 5) = Res.ok () s2 ∧
      s2.stack.top = 6 ∧ s2.stack.mem 5 = Value.int48 42 ∧ s2.stack.mem 1 = Value.int48 42 ∧
      s2.ip = ⟨0, 2⟩ :=
  ⟨rfl, rfl, rfl, by decide, by
    obtain ⟨s2, h1, h2, h3, h4, h5, _, _⟩ :=
      pop_then_push_var_round_trip (sampleMachine [storeLoad] false)
        (stateOf (stackOf 16 [Value.int48 8, Value.raw 0, Value.uint48 0,
          Value.ptr (Pointer.instr ⟨0, 0⟩), Value.ptr (Pointer.slot 0), Value.int48 42]
          (Value.raw 0)) 0 ⟨0, 0⟩ 5)
        storeLoad 1 rfl rfl rfl (by decide) (by decide) (by decide) (by decide)
    exact ⟨s2, h1, h2, h3.trans rfl, h4.trans rfl, h5⟩⟩

/-! ## Unconditional jump, end marker, unsupported call -/

/-- C11: for every state whose `ip` is at `JMP k`, the dispatch step completes and sets
`ip` to `ip + k + 1`, leaving the stack contents, the cursor, `fn`, `bp` and the heap
unchanged; in particular `JMP 2` at position `p` lands at `p + 3`. -/
theorem jmp_sets_ip {H : Type} (vm : VirtualMachine H) (s : State H) (k : Immediate)
    (hi : instrAt vm s.ip = some ⟨OpCode.JMP, k⟩) :
    step vm s = Res.ok () { s with ip := ⟨s.ip.seg, s.ip.off + k + 1⟩ } ∧
    (k = 2 → ∃ s1, step vm s = Res.ok () s1 ∧ s1.ip.off = s.ip.off + 3 ∧
      s1.stack = s.stack ∧ s1.fn = s.fn ∧ s1.bp = s.bp) := by
  have e : step vm s = Res.ok () { s with ip := ⟨s.ip.seg, s.ip.off + k + 1⟩ } := by
    rw [step_eq vm s _ hi]
    show doJmp vm s = _
    simp [doJmp, bind_apply, immediate_eq vm s _ hi, advance, add_assoc]
  refine ⟨e, ?_⟩
  intro hk
  refine ⟨_, e, ?_, rfl, rfl, rfl⟩
  show s.ip.off + k + 1 = s.ip.off + 3
  rw [hk]
  omega

/-- Witness for `jmp_sets_ip`: `JMP 2` at offset 0 of `misc` lands at offset 3. -/
theorem jmp_sets_ip_witness :
    instrAt (sampleMachine [misc] false)
      (stateOf (stackOf 8 [Value.int48 1] (Value.raw 0)) 0 ⟨0, 0⟩ 0).ip
      = some ⟨OpCode.JMP, 2⟩ ∧
    step (sampleMachine [misc] false)
        (stateOf (stackOf 8 [Value.int48 1] (Value.raw 0)) 0 ⟨0, 0⟩ 0)
      = Res.ok () (stateOf (stackOf 8 [Value.int48 1] (Value.raw 0)) 0 ⟨0, 3⟩ 0) :=
  ⟨rfl, (jmp_sets_ip (sampleMachine [misc] false)
      (stateOf (stackOf 8 [Value.int48 1] (Value.raw 0)) 0 ⟨0, 0⟩ 0) 2 rfl).1⟩

/-- C12: when the instruction at `ip` is the end marker, `interpret` (allowed at least one
loop test) fails with the end-of-function error in the very state it was started in: no
handler ran and the stack is as it was.  And `interpret` never completes normally, for
any initial state and any number of iterations. -/
theorem interpret_end_marker_fails {H : Type} (vm : VirtualMachine H) (s : State H)
    (fuel : Nat) (hend : instrAt vm s.ip = some END_SECTION) :
    interpret vm (fuel + 1) s = Res.fail Error.reachedEndOfFunction s ∧
    ∀ (n : Nat) (t : State H) (a : Unit) (t1 : State H), interpret vm n t ≠ Res.ok a t1 := by
  refine ⟨?_, interpret_never_ok vm⟩
  unfold interpret
  rw [bind_apply, fetch_eq vm s _ hend]
  simp [raise]

/-- Witness for `interpret_end_marker_fails`: `interpret` started at the end marker of
`unary`. -/
theorem interpret_end_marker_fails_witness :
    instrAt (sampleMachine [unary] false)
      (stateOf (stackOf 8 [Value.int48 1] (Value.raw 0)) 0 ⟨0, 0⟩ 0).ip = some END_SECTION ∧
    interpret (sampleMachine [unary] false) (0 + 1)
        (stateOf (stackOf 8 [Value.int48 1] (Value.raw 0)) 0 ⟨0, 0⟩ 0)
      = Res.fail Error.reachedEndOfFunction
          (stateOf (stackOf 8 [Value.int48 1] (Value.raw 0)) 0 ⟨0, 0⟩ 0) :=
  ⟨rfl, (interpret_end_marker_fails (sampleMachine [unary] false)
      (stateOf (stackOf 8 [Value.int48 1] (Value.raw 0)) 0 ⟨0, 0⟩ 0) 0 rfl).1⟩

/-- C13 (amended): for every state whose `ip` is at `CALL_INDIRECT`, the dispatch step
fails at `assert(0)` with the state unchanged in a build with assertions enabled, and in a
build with `NDEBUG` it completes, changing nothing but `ip`, which advances by one. -/
theorem call_indirect_asserts {H : Type} (vm : VirtualMachine H) (s : State H)
    (k : Immediate) (hi : instrAt vm s.ip = some ⟨OpCode.CALL_INDIRECT, k⟩) :
    (vm.ndebug = false → step vm s = Res.fail Error.assertion s) ∧
    (vm.ndebug = true →
      step vm s = Res.ok () { s with ip := ⟨s.ip.seg, s.ip.off + 1⟩ }) := by
  rw [step_eq vm s _ hi]
  constructor
  · intro hnd
    show doCallIndirect vm s = _
    simp [doCallIndirect, bind_apply, assert, hnd, raise]
  · intro hnd
    show doCallIndirect vm s = _
    simp [doCallIndirect, bind_apply, assert, hnd, Exec.pure, advance]

/-- Witness for `call_indirect_asserts`: `CALL_INDIRECT` at offset 1 of `misc` in a build
with assertions. -/
theorem call_indirect_asserts_witness :
    instrAt (sampleMachine [misc] false)
      (stateOf (stackOf 8 [] (Value.raw 0)) 0 ⟨0, 1⟩ 0).ip
      = some ⟨OpCode.CALL_INDIRECT, 0⟩ ∧
    (sampleMachine [misc] false).ndebug = false ∧
    step (sampleMachine [misc] false) (stateOf (stackOf 8 [] (Value.raw 0)) 0 ⟨0, 1⟩ 0)
      = Res.fail Error.assertion (stateOf (stackOf 8 [] (Value.raw 0)) 0 ⟨0, 1⟩ 0) :=
  ⟨rfl, rfl, (call_indirect_asserts (sampleMachine [misc] false)
      (stateOf (stackOf 8 [] (Value.raw 0)) 0 ⟨0, 1⟩ 0) 0 rfl).1 rfl⟩

/-- C13 (counterexample): in a build with `NDEBUG`, dispatching `CALL_INDIRECT` at offset 1
of `misc` does not fail: the step completes and merely advances `ip` to offset 2. -/
theorem call_indirect_ndebug_counterexample :
    instrAt (sampleMachine [misc] true)
      (stateOf (stackOf 8 [] (Value.raw 0)) 0 ⟨0, 1⟩ 0).ip
      = some ⟨OpCode.CALL_INDIRECT, 0⟩ ∧
    step (sampleMachine [misc] true) (stateOf (stackOf 8 [] (Value.raw 0)) 0 ⟨0, 1⟩ 0)
      = Res.ok () (stateOf (stackOf 8 [] (Value.raw 0)) 0 ⟨0, 2⟩ 0) :=
  ⟨rfl, rfl⟩

/-! ## Division -/

/-- C14 (amended): for every integer `left`, `INT_DIV` executed with the right operand 0
on top of `left` pops both operands and performs the native division `left / 0` without
any check of the divisor: where the machine traps the step ends in that trap with nothing
pushed, and where the machine yields a word `q` the step pushes `q` as if it were a
quotient.  The handler has no policy of its own and raises no failure of its own. -/
theorem int_div_by_zero_is_native {H : Type} (vm : VirtualMachine H) (s : State H)
    (k : Immediate) (left : Int)
    (hi : instrAt vm s.ip = some ⟨OpCode.INT_DIV, k⟩)
    (h2 : 2 ≤ s.stack.top) (hc : s.stack.top ≤ s.stack.cap)
    (hr : s.stack.mem (s.stack.top - 1) = Value.int48 0)
    (hl : s.stack.mem (s.stack.top - 2) = Value.int48 left) :
    step vm s =
      match vm.nativeDivByZero left with
      | none => Res.fail Error.divisionTrap (popped s 2)
      | some q => Res.ok () { s with stack := { s.stack with
          mem := Function.update s.stack.mem (s.stack.top - 2) (Value.ofInt48 q),
          top := s.stack.top - 1 } } := by
  rw [step_eq vm s _ hi]
  show doIntDiv vm s = _
  unfold doIntDiv
  rw [pop_two_ints s left 0 _ h2 hr hl]
  cases hq : vm.nativeDivByZero left with
  | none => simp [bind_apply, nativeDiv, hq, raise, popped]
  | some q =>
    simp only [bind_apply, nativeDiv, hq, if_true, Exec.pure]
    exact push_after_pop_two s _ h2 hc

/-- Witness for `int_div_by_zero_is_native`: `7 / 0` at offset 2 of `misc` on a machine
whose division traps. -/
theorem int_div_by_zero_is_native_witness :
    instrAt (sampleMachine [misc] false)
      (stateOf (stackOf 8 [Value.int48 7, Value.int48 0] (Value.raw 0)) 0 ⟨0, 2⟩ 0).ip
      = some ⟨OpCode.INT_DIV, 0⟩ ∧
    step (sampleMachine [misc] false)
        (stateOf (stackOf 8 [Value.int48 7, Value.int48 0] (Value.raw 0)) 0 ⟨0, 2⟩ 0)
      = Res.fail Error.divisionTrap
          (popped (stateOf (stackOf 8 [Value.int48 7, Value.int48 0] (Value.raw 0)) 0 ⟨0, 2⟩ 0)
            2) :=
  ⟨rfl, int_div_by_zero_is_native (sampleMachine [misc] false)
      (stateOf (stackOf 8 [Value.int48 7, Value.int48 0] (Value.raw 0)) 0 ⟨0, 2⟩ 0)
      0 7 rfl (by decide) (by decide) rfl rfl⟩

/-- C14 (counterexample): `INT_DIV` on the stack `[7, 0]` has no outcome fixed by the
handler.  On a machine whose division instruction traps, the step ends in the trap; on a
machine whose division instruction yields 0 for a zero divisor, the same step completes
and leaves `0` on the stack.  The handler performs the native division unguarded. -/
theorem int_div_by_zero_counterexample :
    (step (sampleMachine [misc] false)
        (stateOf (stackOf 8 [Value.int48 7, Value.int48 0] (Value.raw 0)) 0 ⟨0, 2⟩ 0)).error?
      = some Error.divisionTrap ∧
    (step (quietDivMachine [misc] false)
        (stateOf (stackOf 8 [Value.int48 7, Value.int48 0] (Value.raw 0)) 0 ⟨0, 2⟩ 0)).error?
      = none ∧
    (step (quietDivMachine [misc] false)
        (stateOf (stackOf 8 [Value.int48 7, Value.int48 0] (Value.raw 0)) 0 ⟨0, 2⟩
          0)).state.stack.top = 1 ∧
    (step (quietDivMachine [misc] false)
        (stateOf (stackOf 8 [Value.int48 7, Value.int48 0] (Value.raw 0)) 0 ⟨0, 2⟩
          0)).state.stack.mem 0 = Value.int48 0 :=
  ⟨rfl, rfl, rfl, rfl⟩

/-! ## JIT call bridge -/

/-- C15: with argument passing enabled and `n ≤ 3` values on the stack, `callJitFunction`
pops exactly the top `n` values (the compiled function runs in the state whose cursor is
`n` lower and whose slots are untouched), invokes the function once with the raw
encodings of those values in push order, and answers the value built with `AS_RAW` from
the scalar the function returned, whose raw encoding is that scalar; a failure of the
function is passed on.  With argument passing disabled it pops nothing and invokes the
function without arguments. -/
theorem callJitFunction_passes_top_values {H : Type} (cfg : Config) (codec : RawCodec)
    (jitFunction : JitFunction H) (n : Nat) (s : State H)
    (hn : n ≤ 3) (htop : n ≤ s.stack.top) :
    (cfg.passParam = true →
      callJitFunction cfg codec jitFunction n s =
        match jitFunction ((topValues s n).map codec.raw) (popped s n) with
        | Res.ok r s1 => Res.ok (codec.ofRaw r) s1
        | Res.fail e s1 => Res.fail e s1) ∧
    (cfg.passParam = false →
      callJitFunction cfg codec jitFunction n s =
        match jitFunction [] s with
        | Res.ok r s1 => Res.ok (codec.ofRaw r) s1
        | Res.fail e s1 => Res.fail e s1) ∧
    (∀ r, codec.raw (codec.ofRaw r) = r) := by
  refine ⟨?_, ?_, codec.raw_ofRaw⟩
  · intro hp
    have h0 : popped s 0 = s := rfl
    rcases n with _ | _ | _ | _ | n
    · simp [callJitFunction, hp, bind_apply, topValues, h0, pure_apply]
      generalize jitFunction _ _ = res
      cases res <;> rfl
    · have a1 : 0 < s.stack.top := by omega
      simp [callJitFunction, hp, bind_apply, topValues, popped, pop, stackPop, a1,
        pure_apply, List.range_succ]
      generalize jitFunction _ _ = res
      cases res <;> rfl
    · have a1 : 0 < s.stack.top := by omega
      have a2 : 0 < s.stack.top - 1 := by omega
      have a3 : s.stack.top - 1 - 1 = s.stack.top - 2 := by omega
      have a4 : s.stack.top - 2 + 1 = s.stack.top - 1 := by omega
      simp [callJitFunction, hp, bind_apply, topValues, popped, pop, stackPop, a1, a2, a3,
        a4, pure_apply, List.range_succ]
      generalize jitFunction _ _ = res
      cases res <;> rfl
    · have a1 : 0 < s.stack.top := by omega
      have a2 : 0 < s.stack.top - 1 := by omega
      have a3 : s.stack.top - 1 - 1 = s.stack.top - 2 := by omega
      have a4 : 0 < s.stack.top - 2 := by omega
      have a5 : s.stack.top - 2 - 1 = s.stack.top - 3 := by omega
      have a6 : s.stack.top - 3 + 1 = s.stack.top - 2 := by omega
      have a7 : s.stack.top - 3 + 2 = s.stack.top - 1 := by omega
      simp [callJitFunction, hp, bind_apply, topValues, popped, pop, stackPop, a1, a2, a3,
        a4, a5, a6, a7, pure_apply, List.range_succ]
      generalize jitFunction _ _ = res
      cases res <;> rfl
    · omega
  · intro hp
    simp [callJitFunction, hp, bind_apply, pure_apply]
    generalize jitFunction _ _ = res
    cases res <;> rfl

/-- Witness for `callJitFunction_passes_top_values`: with `1, 2, 3` pushed in that order
on top of `9`, a call with three arguments passes `[1, 2, 3]`; the sample function answers
`123`, and `9` is left on the stack. -/
theorem callJitFunction_passes_top_values_witness :
    (3 : Nat) ≤ 3 ∧
    3 ≤ (stateOf (stackOf 8 [Value.raw 9, Value.raw 1, Value.raw 2, Value.raw 3]
      (Value.raw 0)) 0 ⟨0, 0⟩ 0).stack.top ∧
    callJitFunction ⟨true, false⟩ sampleCodec sampleJit 3
        (stateOf (stackOf 8 [Value.raw 9, Value.raw 1, Value.raw 2, Value.raw 3]
          (Value.raw 0)) 0 ⟨0, 0⟩ 0)
      = Res.ok (Value.raw 123)
          (popped (stateOf (stackOf 8 [Value.raw 9, Value.raw 1, Value.raw 2, Value.raw 3]
            (Value.raw 0)) 0 ⟨0, 0⟩ 0) 3) :=
  ⟨by decide, by decide,
   (callJitFunction_passes_top_values ⟨true, false⟩ sampleCodec sampleJit 3
      (stateOf (stackOf 8 [Value.raw 9, Value.raw 1, Value.raw 2, Value.raw 3]
        (Value.raw 0)) 0 ⟨0, 0⟩ 0) (by decide) (by decide)).1 rfl⟩

/-- C16 (amended): for every arity `n > 3`, `callJitFunction` with argument passing
enabled fails with the error of its `default` case in the state it was called in: nothing
is popped and the compiled function is not invoked.  With argument passing disabled there
is no arity check: for every `n` the compiled function is invoked without arguments and
its result is returned. -/
theorem callJitFunction_unsupported_arity {H : Type} (cfg : Config) (codec : RawCodec)
    (jitFunction : JitFunction H) (n : Nat) (s : State H) (hn : 3 < n) :
    (cfg.passParam = true →
      callJitFunction cfg codec jitFunction n s
        = Res.fail Error.needMoreParameterHandlers s) ∧
    (cfg.passParam = false →
      callJitFunction cfg codec jitFunction n s =
        match jitFunction [] s with
        | Res.ok r s1 => Res.ok (codec.ofRaw r) s1
        | Res.fail e s1 => Res.fail e s1) := by
  constructor
  · intro hp
    rcases n with _ | _ | _ | _ | n
    · omega
    · omega
    · omega
    · omega
    · simp [callJitFunction, hp, bind_apply, raise]
  · intro hp
    simp [callJitFunction, hp, bind_apply, pure_apply]
    generalize jitFunction _ _ = res
    cases res <;> rfl

/-- Witness for `callJitFunction_unsupported_arity`: arity 4 with argument passing
enabled. -/
theorem callJitFunction_unsupported_arity_witness :
    (3 : Nat) < 4 ∧
    callJitFunction ⟨true, false⟩ sampleCodec sampleJit 4
        (stateOf (stackOf 8 [Value.raw 1, Value.raw 2, Value.raw 3, Value.raw 4]
          (Value.raw 0)) 0 ⟨0, 0⟩ 0)
      = Res.fail Error.needMoreParameterHandlers
          (stateOf (stackOf 8 [Value.raw 1, Value.raw 2, Value.raw 3, Value.raw 4]
            (Value.raw 0)) 0 ⟨0, 0⟩ 0) :=
  ⟨by decide,
   (callJitFunction_unsupported_arity ⟨true, false⟩ sampleCodec sampleJit 4
      (stateOf (stackOf 8 [Value.raw 1, Value.raw 2, Value.raw 3, Value.raw 4]
        (Value.raw 0)) 0 ⟨0, 0⟩ 0) (by decide)).1 rfl⟩

/-- C16 (counterexample): with argument passing disabled, `callJitFunction` with arity 4
on a stack holding four arguments does not fail: it invokes the compiled function without
any of the four arguments (the sample function then answers 0) and leaves the stack as it
was. -/
theorem callJitFunction_arity_four_counterexample :
    callJitFunction ⟨false, false⟩ sampleCodec sampleJit 4
        (stateOf (stackOf 8 [Value.raw 1, Value.raw 2, Value.raw 3, Value.raw 4]
          (Value.raw 0)) 0 ⟨0, 0⟩ 0)
      = Res.ok (Value.raw 0)
          (stateOf (stackOf 8 [Value.raw 1, Value.raw 2, Value.raw 3, Value.raw 4]
            (Value.raw 0)) 0 ⟨0, 0⟩ 0) :=
  rfl

/-! ## Object fields -/

theorem doPushFromObject_not_ref {H : Type} (vm : VirtualMachine H) (s : State H)
    (op : OpCode) (sid : Immediate)
    (hi : instrAt vm s.ip = some ⟨op, sid⟩) (htop : 0 < s.stack.top)
    (hv : (s.stack.mem (s.stack.top - 1)).isRef = false) :
    doPushFromObject vm s = Res.fail Error.nonObjectValueAsObject (popped s 1) := by
  simp [doPushFromObject, bind_apply, immediate_eq vm s _ hi, stackPop, htop, hv, raise,
    popped]

theorem doPushFromObject_no_slot {H : Type} (vm : VirtualMachine H) (s : State H)
    (op : OpCode) (sid : Immediate) (o : ObjRef)
    (hi : instrAt vm s.ip = some ⟨op, sid⟩) (htop : 0 < s.stack.top)
    (hv : s.stack.mem (s.stack.top - 1) = Value.ref o)
    (hnone : vm.lookupSlot s.heap o sid = none) :
    doPushFromObject vm s = Res.fail Error.noSuchField (popped s 1) := by
  simp [doPushFromObject, bind_apply, immediate_eq vm s _ hi, stackPop, htop, hv, raise,
    popped, Value.isRef, Value.getRef, Exec.pure, getState, hnone]

theorem doPushFromObject_found {H : Type} (vm : VirtualMachine H) (s : State H)
    (op : OpCode) (sid : Immediate) (o : ObjRef) (d : SlotDescriptor)
    (hi : instrAt vm s.ip = some ⟨op, sid⟩) (htop : 0 < s.stack.top)
    (hcap : s.stack.top ≤ s.stack.cap)
    (hv : s.stack.mem (s.stack.top - 1) = Value.ref o)
    (hsome : vm.lookupSlot s.heap o sid = some d) :
    doPushFromObject vm s = Res.ok ()
      { s with
        stack := { s.stack with
          mem := Function.update s.stack.mem (s.stack.top - 1) (vm.getValue s.heap o d) },
        ip := ⟨s.ip.seg, s.ip.off + 1⟩ } := by
  have a1 : s.stack.top - 1 < s.stack.cap := by omega
  have a2 : s.stack.top - 1 + 1 = s.stack.top := by omega
  simp [doPushFromObject, bind_apply, immediate_eq vm s _ hi, stackPop, htop, hv,
    Value.isRef, Value.getRef, Exec.pure, getState, hsome, stackPush, a1, a2, advance]

/-- C17: in a state with a value on top of the stack and `ip` at `PUSH_FROM_OBJECT s`, the
dispatch step fails exactly when the top value is not a heap reference or is a reference
to an object whose shape has no slot `s`; the failure is the non-object error in the first
case and the missing-field error in the second.  In every other case the step pops the
reference, pushes `getValue(object, descriptor of s)` in its place, leaves the cursor
where it was and advances `ip` by one. -/
theorem push_from_object_outcomes {H : Type} (vm : VirtualMachine H) (s : State H)
    (sid : Immediate)
    (hi : instrAt vm s.ip = some ⟨OpCode.PUSH_FROM_OBJECT, sid⟩)
    (htop : 0 < s.stack.top) (hcap : s.stack.top ≤ s.stack.cap) :
    ((step vm s).error?.isSome ↔
      ((s.stack.mem (s.stack.top - 1)).isRef = false ∨
        ∃ o, s.stack.mem (s.stack.top - 1) = Value.ref o ∧
          vm.lookupSlot s.heap o sid = none)) ∧
    ((s.stack.mem (s.stack.top - 1)).isRef = false →
      (step vm s).error? = some Error.nonObjectValueAsObject) ∧
    (∀ o, s.stack.mem (s.stack.top - 1) = Value.ref o →
      vm.lookupSlot s.heap o sid = none →
      (step vm s).error? = some Error.noSuchField) ∧
    (∀ o d, s.stack.mem (s.stack.top - 1) = Value.ref o →
      vm.lookupSlot s.heap o sid = some d →
      step vm s = Res.ok ()
        { s with
          stack := { s.stack with
            mem := Function.update s.stack.mem (s.stack.top - 1) (vm.getValue s.heap o d) },
          ip := ⟨s.ip.seg, s.ip.off + 1⟩ }) := by
  have e : step vm s = doPushFromObject vm s := step_eq vm s _ hi
  rw [e]
  refine ⟨?_, ?_, ?_, ?_⟩
  · cases hv : s.stack.mem (s.stack.top - 1) with
    | ref o =>
      cases hl : vm.lookupSlot s.heap o sid with
      | none =>
        rw [doPushFromObject_no_slot vm s _ sid o hi htop hv hl]
        simp [Res.error?, hl]
      | some d =>
        rw [doPushFromObject_found vm s _ sid o d hi htop hcap hv hl]
        simp [Res.error?, Value.isRef, hl]
    | int48 i =>
      rw [doPushFromObject_not_ref vm s _ sid hi htop (by rw [hv]; rfl)]
      simp [Res.error?, Value.isRef]
    | uint48 n =>
      rw [doPushFromObject_not_ref vm s _ sid hi htop (by rw [hv]; rfl)]
      simp [Res.error?, Value.isRef]
    | ptr p =>
      rw [doPushFromObject_not_ref vm s _ sid hi htop (by rw [hv]; rfl)]
      simp [Res.error?, Value.isRef]
    | raw b =>
      rw [doPushFromObject_not_ref vm s _ sid hi htop (by rw [hv]; rfl)]
      simp [Res.error?, Value.isRef]
  · intro hv
    rw [doPushFromObject_not_ref vm s _ sid hi htop hv]
    rfl
  · intro o hv hl
    rw [doPushFromObject_no_slot vm s _ sid o hi htop hv hl]
    rfl
  · intro o d hv hl
    exact doPushFromObject_found vm s _ sid o d hi htop hcap hv hl

/-- Witness for `push_from_object_outcomes`: object 0 of the sample heap has slot 7 with
value `5`; `PUSH_FROM_OBJECT 7` at offset 3 of `misc` with a reference to it on top
replaces the reference by `5`. -/
theorem push_from_object_outcomes_witness :
    instrAt (heapMachine [misc] false false)
      (heapState (stackOf 8 [Value.ref 0] (Value.raw 0)) 0 ⟨0, 3⟩ 0 [[(7, Value.int48 5)]]).ip
      = some ⟨OpCode.PUSH_FROM_OBJECT, 7⟩ ∧
    (heapMachine [misc] false false).lookupSlot [[(7, Value.int48 5)]] 0 7 = some 0 ∧
    (heapMachine [misc] false false).getValue [[(7, Value.int48 5)]] 0 0 = Value.int48 5 ∧
    step (heapMachine [misc] false false)
        (heapState (stackOf 8 [Value.ref 0] (Value.raw 0)) 0 ⟨0, 3⟩ 0 [[(7, Value.int48 5)]])
      = Res.ok ()
          (heapState
            { cap := 8
              mem := Function.update (stackOf 8 [Value.ref 0] (Value.raw 0)).mem 0
                (Value.int48 5)
              top := 1 }
            0 ⟨0, 4⟩ 0 [[(7, Value.int48 5)]]) :=
  ⟨rfl, rfl, rfl,
   (push_from_object_outcomes (heapMachine [misc] false false)
      (heapState (stackOf 8 [Value.ref 0] (Value.raw 0)) 0 ⟨0, 3⟩ 0 [[(7, Value.int48 5)]])
      7 rfl (by decide) (by decide)).2.2.2 0 0 rfl rfl⟩

theorem doPopIntoObject_found {H : Type} (vm : VirtualMachine H) (s : State H)
    (op : OpCode) (sid : Immediate) (o : ObjRef) (d : SlotDescriptor)
    (hi : instrAt vm s.ip = some ⟨op, sid⟩) (h2 : 2 ≤ s.stack.top)
    (ho : s.stack.mem (s.stack.top - 1) = Value.ref o)
    (hsome : vm.lookupSlot s.heap o sid = some d) :
    doPopIntoObject vm s = Res.ok ()
      { s with
        stack := { s.stack with top := s.stack.top - 2 },
        ip := ⟨s.ip.seg, s.ip.off + 1⟩,
        heap := vm.setValue s.heap o d (s.stack.mem (s.stack.top - 2)) } := by
  have a1 : 0 < s.stack.top := by omega
  have a2 : 0 < s.stack.top - 1 := by omega
  have a3 : s.stack.top - 1 - 1 = s.stack.top - 2 := by omega
  simp [doPopIntoObject, bind_apply, immediate_eq vm s _ hi, stackPeek, stackPop, pop, a1, a2,
    a3, ho, Value.isRef, Value.getRef, Exec.pure, getState, hsome, pure_apply, setHeap,
    advance]

theorem doPopIntoObject_transition {H : Type} (vm : VirtualMachine H) (s : State H)
    (op : OpCode) (sid : Immediate) (o root : ObjRef) (m : Nat) (h1 : H)
    (hi : instrAt vm s.ip = some ⟨op, sid⟩) (h2 : 2 ≤ s.stack.top)
    (ho : s.stack.mem (s.stack.top - 1) = Value.ref o)
    (hnone : vm.lookupSlot s.heap o sid = none)
    (htr : vm.transitionLayout s.heap o sid = (some m, root, h1)) :
    doPopIntoObject vm s = Res.ok ()
      { s with
        stack := { s.stack with top := s.stack.top - 2 },
        ip := ⟨s.ip.seg, s.ip.off + 1⟩,
        heap := vm.setValue h1 root
          ((vm.lookupSlot h1 o sid).getD vm.defaultDescriptor)
          (s.stack.mem (s.stack.top - 2)) } := by
  have a1 : 0 < s.stack.top := by omega
  have a2 : 0 < s.stack.top - 1 := by omega
  have a3 : s.stack.top - 1 - 1 = s.stack.top - 2 := by omega
  cases hnd : vm.ndebug <;>
  simp [doPopIntoObject, bind_apply, immediate_eq vm s _ hi, stackPeek, stackPop, pop, a1, a2,
    a3, ho, Value.isRef, Value.getRef, Exec.pure, getState, hnone, pure_apply, setHeap,
    advance, transitionAndLookup, htr, assert, hnd]

/-- C18: over an allocator in which object `o` has no slot `sid` yet, a layout transition
adds the slot without moving the object, `lookupSlot` then finds it under a descriptor
`d`, a store does not change that, and `getValue` reads back what `setValue` stored under
`d`: on a stack `[.., v, o]`, `POP_INTO_OBJECT sid` completes, pops both values, advances
`ip` by one and leaves the heap with `v` stored; and from every later state with that
heap, `o` on top and `ip` at `PUSH_FROM_OBJECT sid`, the step completes and replaces `o`
by `v` on top of the stack. -/
theorem object_field_round_trip {H : Type} (vm : VirtualMachine H) (s : State H)
    (sid : Immediate) (o : ObjRef) (v : Value) (m : Nat) (h1 : H) (d : SlotDescriptor)
    (hi : instrAt vm s.ip = some ⟨OpCode.POP_INTO_OBJECT, sid⟩)
    (h2 : 2 ≤ s.stack.top)
    (ho : s.stack.mem (s.stack.top - 1) = Value.ref o)
    (hv : s.stack.mem (s.stack.top - 2) = v)
    (hfresh : vm.lookupSlot s.heap o sid = none)
    (htr : vm.transitionLayout s.heap o sid = (some m, o, h1))
    (hfound : vm.lookupSlot h1 o sid = some d)
    (hkeep : vm.lookupSlot (vm.setValue h1 o d v) o sid = some d)
    (hget : vm.getValue (vm.setValue h1 o d v) o d = v) :
    ∃ s1, step vm s = Res.ok () s1 ∧
      s1.stack.top = s.stack.top - 2 ∧ s1.ip = ⟨s.ip.seg, s.ip.off + 1⟩ ∧
      s1.heap = vm.setValue h1 o d v ∧
      ∀ s2 : State H, s2.heap = s1.heap → 0 < s2.stack.top → s2.stack.top ≤ s2.stack.cap →
        s2.stack.mem (s2.stack.top - 1) = Value.ref o →
        instrAt vm s2.ip = some ⟨OpCode.PUSH_FROM_OBJECT, sid⟩ →
        ∃ s3, step vm s2 = Res.ok () s3 ∧ s3.stack.top = s2.stack.top ∧
          s3.stack.mem (s2.stack.top - 1) = v ∧ s3.ip = ⟨s2.ip.seg, s2.ip.off + 1⟩ := by
  have e : step vm s = doPopIntoObject vm s := step_eq vm s _ hi
  rw [doPopIntoObject_transition vm s _ sid o o m h1 hi h2 ho hfresh htr, hfound, hv] at e
  refine ⟨_, e, rfl, rfl, rfl, ?_⟩
  intro s2 hheap htop hcap hon hpush
  have hheap : s2.heap = vm.setValue h1 o d v := hheap
  have e2 : step vm s2 = doPushFromObject vm s2 := step_eq vm s2 _ hpush
  rw [doPushFromObject_found vm s2 _ sid o d hpush htop hcap hon (by rw [hheap]; exact hkeep)]
    at e2
  refine ⟨_, e2, rfl, ?_, rfl⟩
  show Function.update s2.stack.mem (s2.stack.top - 1) (vm.getValue s2.heap o d)
    (s2.stack.top - 1) = v
  rw [Function.update_same, hheap, hget]

/-- Witness for `object_field_round_trip`: on the sample allocator, with the fresh object
0, `POP_INTO_OBJECT 7` on the stack `[5, ref 0]` leaves object 0 with slot 7 holding `5`,
and `PUSH_FROM_OBJECT 7` on the stack `[ref 0]` then yields `5`. -/
theorem object_field_round_trip_witness :
    (heapMachine [misc] false false).allocateEmptyObject [] = (0, [[]]) ∧
    instrAt (heapMachine [misc] false false)
      (heapState (stackOf 8 [Value.int48 5, Value.ref 0] (Value.raw 0)) 0 ⟨0, 4⟩ 0 [[]]).ip
      = some ⟨OpCode.POP_INTO_OBJECT, 7⟩ ∧
    (heapMachine [misc] false false).lookupSlot [[]] 0 7 = none ∧
    ∃ s1, step (heapMachine [misc] false false)
        (heapState (stackOf 8 [Value.int48 5, Value.ref 0] (Value.raw 0)) 0 ⟨0, 4⟩ 0 [[]])
        = Res.ok () s1 ∧
      s1.stack.top = 0 ∧ s1.heap = [[(7, Value.int48 5)]] ∧
      ∃ s3, step (heapMachine [misc] false false)
          (heapState (stackOf 8 [Value.ref 0] (Value.raw 0)) 0 ⟨0, 3⟩ 0
            [[(7, Value.int48 5)]]) = Res.ok () s3 ∧
        s3.stack.top = 1 ∧ s3.stack.mem 0 = Value.int48 5 :=
  ⟨rfl, rfl, rfl, by
    obtain ⟨s1, g1, g2, _, g4, g5⟩ :=
      object_field_round_trip (heapMachine [misc] false false)
        (heapState (stackOf 8 [Value.int48 5, Value.ref 0] (Value.raw 0)) 0 ⟨0, 4⟩ 0 [[]])
        7 0 (Value.int48 5) 1 [[(7, Value.raw 0)]] 0
        rfl (by decide) rfl rfl rfl rfl rfl rfl rfl
    obtain ⟨s3, k1, k2, k3, _⟩ := g5
      (heapState (stackOf 8 [Value.ref 0] (Value.raw 0)) 0 ⟨0, 3⟩ 0 [[(7, Value.int48 5)]])
      (g4.trans rfl).symm (by decide) (by decide) rfl rfl
    exact ⟨s1, g1, g2, g4.trans rfl, s3, k1, k2, k3⟩⟩

/-- C20 (the code as written): in `POP_INTO_OBJECT` with a slot id unknown to the shape of
the popped object `o`, where the layout transition leaves the rooted reference at `root`
(possibly different from `o`), the store is applied to `root`, but the descriptor it
stores under is the one `lookupSlot` finds through the pre-transition reference `o`, or
the default-constructed descriptor when that lookup fails. -/
theorem pop_into_object_resolves_through_stale_object {H : Type} (vm : VirtualMachine H)
    (s : State H) (sid : Immediate) (o root : ObjRef) (m : Nat) (h1 : H)
    (hi : instrAt vm s.ip = some ⟨OpCode.POP_INTO_OBJECT, sid⟩)
    (h2 : 2 ≤ s.stack.top)
    (ho : s.stack.mem (s.stack.top - 1) = Value.ref o)
    (hnone : vm.lookupSlot s.heap o sid = none)
    (htr : vm.transitionLayout s.heap o sid = (some m, root, h1)) :
    step vm s = Res.ok ()
      { s with
        stack := { s.stack with top := s.stack.top - 2 },
        ip := ⟨s.ip.seg, s.ip.off + 1⟩,
        heap := vm.setValue h1 root
          ((vm.lookupSlot h1 o sid).getD vm.defaultDescriptor)
          (s.stack.mem (s.stack.top - 2)) } := by
  rw [step_eq vm s _ hi]
  exact doPopIntoObject_transition vm s _ sid o root m h1 hi h2 ho hnone htr

/-- Witness for `pop_into_object_resolves_through_stale_object`: on the relocating sample
allocator, object 0 has slot 3 holding `11`.  `POP_INTO_OBJECT 7` with value `5` moves the
object to reference 1, where slot 7 has descriptor 1; the lookup through the old
reference 0 finds nothing, so `5` is stored under the default descriptor 0: it overwrites
slot 3 and slot 7 is left unset. -/
theorem pop_into_object_resolves_through_stale_object_witness :
    instrAt (heapMachine [misc] false true)
      (heapState (stackOf 8 [Value.int48 5, Value.ref 0] (Value.raw 0)) 0 ⟨0, 4⟩ 0
        [[(3, Value.int48 11)]]).ip = some ⟨OpCode.POP_INTO_OBJECT, 7⟩ ∧
    (heapMachine [misc] false true).lookupSlot [[(3, Value.int48 11)]] 0 7 = none ∧
    (heapMachine [misc] false true).transitionLayout [[(3, Value.int48 11)]] 0 7
      = (some 1, 1, [[], [(3, Value.int48 11), (7, Value.raw 0)]]) ∧
    (heapMachine [misc] false true).lookupSlot
      [[], [(3, Value.int48 11), (7, Value.raw 0)]] 1 7 = some 1 ∧
    (heapMachine [misc] false true).lookupSlot
      [[], [(3, Value.int48 11), (7, Value.raw 0)]] 0 7 = none ∧
    step (heapMachine [misc] false true)
        (heapState (stackOf 8 [Value.int48 5, Value.ref 0] (Value.raw 0)) 0 ⟨0, 4⟩ 0
          [[(3, Value.int48 11)]])
      = Res.ok ()
          (heapState { cap := 8, mem := (stackOf 8 [Value.int48 5, Value.ref 0]
              (Value.raw 0)).mem, top := 0 } 0 ⟨0, 5⟩ 0
            [[], [(3, Value.int48 5), (7, Value.raw 0)]]) :=
  ⟨rfl, rfl, rfl, rfl, rfl,
   pop_into_object_resolves_through_stale_object (heapMachine [misc] false true)
      (heapState (stackOf 8 [Value.int48 5, Value.ref 0] (Value.raw 0)) 0 ⟨0, 4⟩ 0
        [[(3, Value.int48 11)]])
      7 0 1 1 [[], [(3, Value.int48 11), (7, Value.raw 0)]] rfl (by decide) rfl rfl rfl⟩

/-! ## GC marking adapter -/

/-- C19: `rootEdge(cx, a, b)` makes exactly one call of `markObject`, on `b` with the third
argument `true`, when `b` is not null, and no call at all when `b` is null;
`edge(cx, a, b)` makes exactly one call of `markObject`, on `b` and without a third
argument; every call either method adds is on `b`, never on the source `a`. -/
theorem marker_forwards_edges (a : CellPtr) (c : Nat) (b : CellPtr) (calls : List MarkCall) :
    Marker.rootEdge a (some c) calls = calls ++ [⟨some c, some true⟩] ∧
    Marker.rootEdge a none calls = calls ∧
    Marker.edge a b calls = calls ++ [⟨b, none⟩] ∧
    (∀ call ∈ (Marker.rootEdge a b calls).drop calls.length, call.object = b) ∧
    (∀ call ∈ (Marker.edge a b calls).drop calls.length, call.object = b) := by
  refine ⟨by simp [Marker.rootEdge], by simp [Marker.rootEdge], rfl, ?_, ?_⟩
  · intro call hcall
    cases b with
    | none => simp [Marker.rootEdge] at hcall
    | some c0 =>
      simp [Marker.rootEdge] at hcall
      rw [hcall]
  · intro call hcall
    simp [Marker.edge] at hcall
    rw [hcall]

end B9
